import Mathlib

/-!
Verification development for the concurrent PDF-acquisition subsystem of the
textbook-archive repository.  The definitions below are a shallow embedding of
`src/2025/download_remaining_pdfs.py` (class `DirectPDFDownloader`) and
`src/2025/retry_failed_downloads.py` (class `RetryFailedDownloader`):

* bytes are `List Nat`, file contents live in an explicit filesystem state;
* the HTTP transport is a function from the index of the `session.get` call to
  an abstract response (status code, content-type header, body chunks as
  produced by `iter_content`, a flag for a network error raised while
  streaming, and the confirmation tokens findable in the response text);
* Python exceptions are `Except`; the `try/except` retry loops become
  structural recursion on the number of remaining attempts;
* wall-clock sleeping is recorded as the list of requested delays
  (`time.sleep` arguments); fractional delays of the retry script are kept in
  half-second units so everything stays in `Nat`.
-/

/-! ## Bytes and the destination-file state -/

abbrev Bytes := List Nat

/-- The four bytes `b'%PDF'`. -/
def pdfMagic : Bytes := [37, 80, 68, 70]

/-- `first_bytes == b'%PDF'` after `f.read(4)` (check_existing_file, line 96-97). -/
def checkMagic4 (b : Bytes) : Bool := decide (b.take 4 = pdfMagic)

/-- `chunk.startswith(b'%PDF')` as used by the download paths. -/
def startsPdf (b : Bytes) : Bool := pdfMagic.isPrefixOf b

/-- The state of the file at one destination path.  `readOk = false` means
`open`/`read`/`stat` raise an I/O error; `unlinkOk = false` means
`Path.unlink()` raises. -/
structure FsFile where
  content : Bytes
  readOk : Bool := true
  unlinkOk : Bool := true
deriving DecidableEq, Repr

/-- `none` = no file at the destination path. -/
abbrev Fs := Option FsFile

def fsSize : Fs → Nat
  | none => 0
  | some f => f.content.length

/-! ## check_existing_file (download_remaining_pdfs.py lines 88-109) -/

inductive IOErr
  | readErr
  | unlinkErr
deriving DecidableEq, Repr

/-- The body of the `try:` block of `check_existing_file` (lines 93-102): read
the first four bytes, compare with `b'%PDF'`, compare `stat().st_size` with
1000; on a validation failure `unlink` the file (line 101, still inside the
`try`, so an unlink error escapes to the handler). -/
def checkBody (f : FsFile) : Except IOErr (Bool × Fs) :=
  if !f.readOk then .error .readErr
  else if checkMagic4 f.content && decide (f.content.length > 1000) then .ok (true, some f)
  else if f.unlinkOk then .ok (false, none)
  else .error .unlinkErr

/-- `check_existing_file`: returns the boolean together with the new state of
the destination path.  The `except` handler (lines 103-109) retries the unlink
with its own error swallowed and returns `False`. -/
def check_existing_file : Fs → Bool × Fs
  | none => (false, none)
  | some f =>
    match checkBody f with
    | .ok r => r
    | .error _ => if f.unlinkOk then (false, none) else (false, some f)

/-! ## String helpers: `in` and the ID-extraction regexes -/

abbrev Str := List Char

/-- Python's substring test `pat in s`. -/
def containsSub (pat : Str) : Str → Bool
  | [] => pat.isPrefixOf []
  | s@(_ :: rest) => pat.isPrefixOf s || containsSub pat rest

/-- The character class `[a-zA-Z0-9-_]` of the ID-extraction patterns. -/
def isIdChar (c : Char) : Bool := c.isAlphanum || c == '-' || c == '_'

/-- `re.search` for a pattern of the shape `lit([a-zA-Z0-9-_]+)`: find the
leftmost occurrence of the literal that is followed by at least one ID
character and return the (greedy) captured group. -/
def searchIdAfter (lit : Str) : Str → Option Str
  | [] => none
  | s@(_ :: rest) =>
    if lit.isPrefixOf s then
      let run := (s.drop lit.length).takeWhile isIdChar
      if run.isEmpty then searchIdAfter lit rest else some run
    else searchIdAfter lit rest

def fileDLit : Str := "/file/d/".toList
def idEqLit : Str := "id=".toList
def openIdLit : Str := "/open?id=".toList

/-- `extract_google_drive_id` (lines 64-76): the three patterns are tried in
order, the first one that matches anywhere in the URL wins. -/
def extract_google_drive_id (url : Str) : Option Str :=
  match searchIdAfter fileDLit url with
  | some i => some i
  | none =>
    match searchIdAfter idEqLit url with
    | some i => some i
    | none => searchIdAfter openIdLit url

def driveStr : Str := "drive.google.com".toList
def egovStr : Str := "drive.egovcloud.gov.bd".toList
def egovMarker : Str := "/index.php/s/".toList
def pdfCt : Str := "application/pdf".toList
def octCt : Str := "application/octet-stream".toList
def htmlCt : Str := "text/html".toList

/-- `get_google_drive_download_url` (line 78-80). -/
def get_google_drive_download_url (fid : Str) : Str :=
  "https://drive.google.com/uc?export=download&id=".toList ++ fid

/-- `get_egovcloud_download_url` (lines 82-86). -/
def get_egovcloud_download_url (url : Str) : Str :=
  if containsSub egovMarker url then url ++ "/download".toList else url

/-! ## The HTTP transport -/

/-- One response of `self.session.get`.  `chunks` is what `iter_content`
delivers; `streamError` means a network error is raised when the iterator is
pulled after the listed chunks; `confirmToken`/`uuidToken` are the tokens the
confirmation-regexes would find in `response.text`; `virusMarker` is whether
the text contains the virus-scan-warning markers. -/
structure HttpResponse where
  status : Nat := 200
  contentType : Str := []
  chunks : List Bytes := []
  streamError : Bool := false
  virusMarker : Bool := false
  confirmToken : Option Str := none
  uuidToken : Option Str := none

/-- Transport: the response returned by the n-th `session.get` call of one
task (calls are counted from 0). -/
abbrev Transport := Nat → HttpResponse

/-- Concatenation performed by the chunk-writing loops (`if chunk:` skips only
empty chunks, so this is plain concatenation). -/
def bytesJoin : List Bytes → Bytes
  | [] => []
  | c :: cs => c ++ bytesJoin cs

/-! ## download_file (download_remaining_pdfs.py lines 111-222) -/

inductive DlErr
  | noFileId
  | httpError (code : Nat)
  | notPdfContent
  | emptyBody
  | streamFail
  | tooSmall (n : Nat)
  | allMethodsFailed
deriving DecidableEq, Repr

/-- Lines 146-186 of `download_file`: one `session.get` with the Google-Drive
confirm-token refetch, `raise_for_status`, the content-type dependent
signature check, the chunk-writing loop, and the final size check.  Returns
the written content on success; on an exception it returns the error together
with the state of the destination file and the call counter at the moment the
exception is raised. -/
def dfBody (resp : HttpResponse) (fs : Fs) (calls2 : Nat) :
    Except (DlErr × Fs × Nat) (Bytes × Fs × Nat) :=
  if resp.status ≥ 400 then .error (.httpError resp.status, fs, calls2)
  else if !containsSub pdfCt resp.contentType && !containsSub octCt resp.contentType then
    -- lines 165-176: peek at the first chunk and demand the PDF signature
    match resp.chunks with
    | [] => .error (.emptyBody, fs, calls2)
    | c0 :: rest =>
      if !startsPdf c0 then .error (.notPdfContent, fs, calls2)
      else
        let content := c0 ++ bytesJoin rest
        let fs' : Fs := some { content := content }
        if resp.streamError then .error (.streamFail, fs', calls2)
        else if content.length < 1000 then .error (.tooSmall content.length, fs', calls2)
        else .ok (content, fs', calls2)
  else
    -- lines 177-182: trusted content type, no signature check
    let content := bytesJoin resp.chunks
    let fs' : Fs := some { content := content }
    if resp.streamError then .error (.streamFail, fs', calls2)
    else if content.length < 1000 then .error (.tooSmall content.length, fs', calls2)
    else .ok (content, fs', calls2)

def dfFetch (downloadUrl : Str) (tr : Transport) (fs : Fs) (calls : Nat) :
    Except (DlErr × Fs × Nat) (Bytes × Fs × Nat) :=
  let r0 := tr calls
  let calls1 := calls + 1
  -- lines 149-158: virus-scan confirm handling (before raise_for_status)
  let st :=
    if containsSub driveStr downloadUrl && (r0.status == 200) &&
        containsSub htmlCt r0.contentType && r0.confirmToken.isSome then
      (tr calls1, calls1 + 1)
    else (r0, calls1)
  dfBody st.1 fs st.2

/-- Lines 131-140: provider classification, then the fetch. -/
def dfAttempt (url : Str) (tr : Transport) (fs : Fs) (calls : Nat) :
    Except (DlErr × Fs × Nat) (Bytes × Fs × Nat) :=
  if containsSub driveStr url then
    match extract_google_drive_id url with
    | none => .error (.noFileId, fs, calls)
    | some fid => dfFetch (get_google_drive_download_url fid) tr fs calls
  else if containsSub egovStr url then
    dfFetch (get_egovcloud_download_url url) tr fs calls
  else
    dfFetch url tr fs calls

inductive DlStatus
  | existing_file
  | newly_downloaded
deriving DecidableEq, Repr

/-- The fields of a `downloaded_files` record that the code computes (the
constant task metadata and the wall-clock timestamp are omitted). -/
structure SuccessRec where
  fileSize : Nat
  status : DlStatus
  attempt : Nat
deriving DecidableEq, Repr

/-- A `failed_downloads` record. -/
structure FailRec where
  error : DlErr
  attempts : Nat
deriving DecidableEq, Repr

/-- Observable result of one `download_file` call: the returned boolean, the
final destination-file state, the number of transport calls, the record put
into `downloaded_files` or `failed_downloads` (if any), the `time.sleep`
arguments in order, and the number of loop iterations executed. -/
structure DlResult where
  ok : Bool
  fs : Fs
  calls : Nat
  success : Option SuccessRec := none
  failure : Option FailRec := none
  waits : List Nat := []
  attemptsMade : Nat := 0
deriving DecidableEq, Repr

/-- The retry loop of `download_file` (lines 127-222).  `rem` is the number of
attempts still available, `attempt` the 0-based index of the current one
(`attempt = retry_count - rem` at every call), so `rem = 0` after the last
iteration reproduces the bare `return False` of line 222, and `rem = 1` means
`attempt == self.retry_count - 1` (line 205). -/
def dfLoop (url : Str) (tr : Transport) :
    Nat → Nat → Fs → Nat → List Nat → Nat → DlResult
  | 0, _, fs, calls, waits, made =>
    { ok := false, fs := fs, calls := calls, waits := waits.reverse, attemptsMade := made }
  | rem + 1, attempt, fs, calls, waits, made =>
    match dfAttempt url tr fs calls with
    | .ok (content, fs', calls') =>
      { ok := true, fs := fs', calls := calls',
        success := some { fileSize := content.length, status := .newly_downloaded,
                          attempt := attempt + 1 },
        waits := waits.reverse, attemptsMade := made + 1 }
    | .error (e, fs', calls') =>
      if rem = 0 then
        { ok := false, fs := fs', calls := calls',
          failure := some { error := e, attempts := attempt + 1 },
          waits := waits.reverse, attemptsMade := made + 1 }
      else
        dfLoop url tr rem (attempt + 1) fs' calls'
          (min (2 ^ attempt) 10 :: waits) (made + 1)

/-- `download_file` (lines 111-222): first the existing-file check (lines
113-125, recording an `existing_file` outcome with zero transport calls), then
the retry loop. -/
def download_file (retry_count : Nat) (url : Str) (tr : Transport) (fs0 : Fs) : DlResult :=
  let chk := check_existing_file fs0
  if chk.1 then
    { ok := true, fs := chk.2, calls := 0,
      success := some { fileSize := fsSize chk.2, status := .existing_file, attempt := 0 } }
  else dfLoop url tr retry_count 0 chk.2 0 [] 0

/-! ## The retry script: _attempt_download (retry_failed_downloads.py lines 156-233) -/

/-- `_attempt_download`: one `session.get`, the Google-specific interstitial
handling (lines 165-196, only when a `google_file_id` was passed), then
`raise_for_status`, the mandatory PDF-signature check on the first chunk, the
write loop and the size floor. -/
def abBody (resp : HttpResponse) (fs : Fs) (calls2 : Nat) :
    Except (DlErr × Fs × Nat) (Bytes × Fs × Nat) :=
  if resp.status ≥ 400 then .error (.httpError resp.status, fs, calls2)
  else
    match resp.chunks with
    | [] => .error (.emptyBody, fs, calls2)
    | c0 :: rest =>
      if !startsPdf c0 then .error (.notPdfContent, fs, calls2)
      else
        let content := c0 ++ bytesJoin rest
        let fs' : Fs := some { content := content }
        if resp.streamError then .error (.streamFail, fs', calls2)
        else if content.length < 1000 then .error (.tooSmall content.length, fs', calls2)
        else .ok (content, fs', calls2)

def attempt_download (tr : Transport) (google : Bool) (fs : Fs) (calls : Nat) :
    Except (DlErr × Fs × Nat) (Bytes × Fs × Nat) :=
  let r0 := tr calls
  let calls1 := calls + 1
  let st :=
    if google && (r0.status == 200) && containsSub htmlCt r0.contentType then
      if r0.virusMarker then
        match r0.confirmToken with
        | some _ => (tr calls1, calls1 + 1)
        | none =>
          match r0.uuidToken with
          | some _ => (tr calls1, calls1 + 1)
          | none => (r0, calls1)
      else (r0, calls1)
    else (r0, calls1)
  abBody st.1 fs st.2

/-- The inner loop over the four Google-Drive download URLs (lines 87-106):
each failed method's exception is swallowed and the next method is tried; the
destination-file state and the call counter carry over between methods. -/
def tryMethods (tr : Transport) : Nat → Fs → Nat → Except (DlErr × Fs × Nat) (Bytes × Fs × Nat)
  | 0, fs, calls => .error (.allMethodsFailed, fs, calls)
  | n + 1, fs, calls =>
    match attempt_download tr true fs calls with
    | .ok r => .ok r
    | .error (_, fs', calls') => tryMethods tr n fs' calls'

/-- One attempt of `download_file_advanced` (lines 80-118): provider
classification, then either the four-method Google loop or a single
`_attempt_download`. -/
def advAttempt (url : Str) (tr : Transport) (fs : Fs) (calls : Nat) :
    Except (DlErr × Fs × Nat) (Bytes × Fs × Nat) :=
  if containsSub driveStr url then
    match extract_google_drive_id url with
    | none => .error (.noFileId, fs, calls)
    | some _ => tryMethods tr 4 fs calls
  else if containsSub egovStr url then
    attempt_download tr false fs calls
  else
    attempt_download tr false fs calls

/-- Observable result of one `download_file_advanced` call.  Waits are in
half-second units because the backoff `2 ** attempt + attempt * 0.5` (line
150) is fractional. -/
structure AdvResult where
  ok : Bool
  fs : Fs
  calls : Nat
  newly : Option SuccessRec := none
  stillFailed : Option FailRec := none
  waitsHalf : List Nat := []
  attemptsMade : Nat := 0
deriving DecidableEq, Repr

/-- The retry loop of `download_file_advanced` (lines 76-154).  The failure
record stores `retry_attempts = self.retry_count` (line 145). -/
def advLoop (url : Str) (tr : Transport) (retry_count : Nat) :
    Nat → Nat → Fs → Nat → List Nat → Nat → AdvResult
  | 0, _, fs, calls, waits, made =>
    { ok := false, fs := fs, calls := calls, waitsHalf := waits.reverse, attemptsMade := made }
  | rem + 1, attempt, fs, calls, waits, made =>
    match advAttempt url tr fs calls with
    | .ok (content, fs', calls') =>
      { ok := true, fs := fs', calls := calls',
        newly := some { fileSize := content.length, status := .newly_downloaded,
                        attempt := attempt + 1 },
        waitsHalf := waits.reverse, attemptsMade := made + 1 }
    | .error (e, fs', calls') =>
      if rem = 0 then
        { ok := false, fs := fs', calls := calls',
          stillFailed := some { error := e, attempts := retry_count },
          waitsHalf := waits.reverse, attemptsMade := made + 1 }
      else
        advLoop url tr retry_count rem (attempt + 1) fs' calls'
          ((2 ^ (attempt + 1) + attempt) :: waits) (made + 1)

/-- `download_file_advanced`: note that unlike `download_file` it performs no
existing-file check before downloading. -/
def download_file_advanced (retry_count : Nat) (url : Str) (tr : Transport) (fs0 : Fs) :
    AdvResult :=
  advLoop url tr retry_count retry_count 0 fs0 0 [] 0

/-! ## The worker pool and the outcome ledger (download_remaining_pdfs.py) -/

/-- A destination path (the ledger key `str(file_path)`). -/
abbrev Dest := List Char

/-- One acquisition task: destination path, source URL, and the transport its
`session.get` calls hit. -/
structure DlTask where
  url : Str
  path : Dest
  tr : Transport

/-- The filesystem: an association list from destination path to file. -/
abbrev FsMap := List (Dest × FsFile)

def fsGet (m : FsMap) (p : Dest) : Fs := m.lookup p

def fsSet (m : FsMap) (p : Dest) (v : Fs) : FsMap :=
  let m' := m.filter (fun kv => !(kv.1 == p))
  match v with
  | none => m'
  | some f => (p, f) :: m'

/-- Python dict assignment `d[k] = v`: replace if the key is present,
otherwise append. -/
def assocSet {α : Type} (k : Dest) (v : α) (l : List (Dest × α)) : List (Dest × α) :=
  if l.any (fun kv => kv.1 == k) then
    l.map (fun kv => if kv.1 == k then (k, v) else kv)
  else l ++ [(k, v)]

/-- The in-memory ledger: `self.downloaded_files` (a dict keyed by the
destination path) and `self.failed_downloads` (a list). -/
structure Ledger where
  downloaded : List (Dest × SuccessRec) := []
  failed : List (Dest × FailRec) := []
deriving DecidableEq, Repr

/-- Fold one `download_file` result into the ledger, as lines 116-124, 188-198
and 206-214 do. -/
def recordDl (p : Dest) (r : DlResult) (L : Ledger) : Ledger :=
  match r.success with
  | some s => { L with downloaded := assocSet p s L.downloaded }
  | none =>
    match r.failure with
    | some f => { L with failed := L.failed ++ [(p, f)] }
    | none => L

/-- Phase one of `download_all_pdfs` (lines 328-341): check every task's
destination up front, record `existing_file` outcomes, and keep the rest as
`files_to_download`. -/
def prefilter : List DlTask → FsMap → Ledger → FsMap × Ledger × List DlTask
  | [], m, L => (m, L, [])
  | t :: ts, m, L =>
    match check_existing_file (fsGet m t.path) with
    | (true, fs') =>
      let L' := { L with
        downloaded := assocSet t.path
          { fileSize := fsSize fs', status := .existing_file, attempt := 0 } L.downloaded }
      prefilter ts (fsSet m t.path fs') L'
    | (false, fs') =>
      let r := prefilter ts (fsSet m t.path fs') L
      (r.1, r.2.1, t :: r.2.2)

/-- Phase two (lines 350-376): run `download_file` for every remaining task.
The thread pool is modelled by one sequential interleaving; each task touches
only its own destination path. -/
def downloadPhase (retry_count : Nat) : List DlTask → FsMap → Ledger → FsMap × Ledger
  | [], m, L => (m, L)
  | t :: ts, m, L =>
    let r := download_file retry_count t.url t.tr (fsGet m t.path)
    downloadPhase retry_count ts (fsSet m t.path r.fs) (recordDl t.path r L)

/-- `download_all_pdfs` (lines 317-376). -/
def download_all_pdfs (retry_count : Nat) (tasks : List DlTask) (m : FsMap) (L : Ledger) :
    FsMap × Ledger :=
  let r := prefilter tasks m L
  downloadPhase retry_count r.2.2 r.1 r.2.1

/-! ## The retry-only run (retry_failed_downloads.py) -/

/-- The persisted `index.json` data the retry run loads and rewrites:
`downloaded_files` and `failed_downloads` (`load_previous_results`, lines
33-47, reads the failed list). -/
structure IndexData where
  downloaded_files : List (Dest × SuccessRec)
  failed_downloads : List (Dest × FailRec)
deriving DecidableEq, Repr

/-- Accumulators `self.newly_downloaded` (a dict) and `self.still_failed` (a
list) of `RetryFailedDownloader`. -/
structure RetryState where
  newly : List (Dest × SuccessRec) := []
  still : List (Dest × FailRec) := []
deriving DecidableEq, Repr

/-- One worker step of `retry_failed_downloads` (lines 258-283): run
`download_file_advanced` and fold its record into the accumulators (lines
121-129 and 138-146). -/
def retryStep (retry_count : Nat) (t : DlTask) (m : FsMap) (st : RetryState) :
    FsMap × RetryState :=
  let r := download_file_advanced retry_count t.url t.tr (fsGet m t.path)
  let m' := fsSet m t.path r.fs
  match r.newly with
  | some s => (m', { st with newly := assocSet t.path s st.newly })
  | none =>
    match r.stillFailed with
    | some f => (m', { st with still := st.still ++ [(t.path, f)] })
    | none => (m', st)

/-- The retry pool over all previously failed tasks, as one sequential
interleaving. -/
def retryAll (retry_count : Nat) : List DlTask → FsMap → RetryState → FsMap × RetryState
  | [], m, st => (m, st)
  | t :: ts, m, st =>
    let r := retryStep retry_count t m st
    retryAll retry_count ts r.1 r.2

/-- `update_index_json` (lines 285-318): `downloaded_files.update(newly)` and
`failed_downloads = still_failed`. -/
def update_index_json (data : IndexData) (st : RetryState) : IndexData :=
  { downloaded_files := st.newly.foldl (fun acc kv => assocSet kv.1 kv.2 acc) data.downloaded_files,
    failed_downloads := st.still }

/-- A full retry-only run: the retry tasks are built from the loaded
`failed_downloads` entries (lines 246-255); the previously successful entries
are never consumed by the run itself, only merged back at the end. -/
def retryRun (retry_count : Nat) (data : IndexData) (tasks : List DlTask) (m : FsMap) :
    IndexData × FsMap :=
  let r := retryAll retry_count tasks m {}
  (update_index_json data r.2, r.1)

/-- Number of records in the ledger for one identifier (its destination
path): the claim C8 invariant counts these. -/
def countPath (p : Dest) (L : Ledger) : Nat :=
  L.downloaded.countP (fun kv => kv.1 == p) + L.failed.countP (fun kv => kv.1 == p)

/-! ## Expected backoff sequences -/

/-- The `time.sleep` arguments of `download_file` when every attempt of a
window of `rem` attempts starting at index `a` fails: `min(2 ** attempt, 10)`
(line 218), with no sleep after the final attempt. -/
def dfWaits : Nat → Nat → List Nat
  | _, 0 => []
  | _, 1 => []
  | a, n + 2 => min (2 ^ a) 10 :: dfWaits (a + 1) (n + 1)

/-- The sleeps of `download_file_advanced` in half-second units:
`2 ** attempt + attempt * 0.5` (line 150) becomes `2 ^ (a + 1) + a`. -/
def advWaits : Nat → Nat → List Nat
  | _, 0 => []
  | _, 1 => []
  | a, n + 2 => (2 ^ (a + 1) + a) :: advWaits (a + 1) (n + 1)

/-! ## Basic lemmas about prefixes and the signature checks -/

theorem isPrefixOf_self {α : Type} [BEq α] [LawfulBEq α] (l : List α) :
    l.isPrefixOf l = true := by
  induction l with
  | nil => rfl
  | cons a as ih => simp [List.isPrefixOf, ih]

theorem isPrefixOf_append_of {α : Type} [BEq α] (p l r : List α)
    (h : p.isPrefixOf l = true) : p.isPrefixOf (l ++ r) = true := by
  induction p generalizing l with
  | nil => cases l ++ r <;> rfl
  | cons a as ih =>
    cases l with
    | nil => simp [List.isPrefixOf] at h
    | cons b bs =>
      simp [List.isPrefixOf] at h ⊢
      exact ⟨h.1, ih bs h.2⟩

theorem startsPdf_of_checkMagic4 (b : Bytes) (h : checkMagic4 b = true) :
    startsPdf b = true := by
  have h4 : b.take 4 = pdfMagic := of_decide_eq_true h
  have hb : b = pdfMagic ++ b.drop 4 := by
    conv_lhs => rw [← List.take_append_drop 4 b]
    rw [h4]
  unfold startsPdf
  rw [hb]
  exact isPrefixOf_append_of _ _ _ (isPrefixOf_self _)

theorem startsPdf_append (c r : Bytes) (h : startsPdf c = true) :
    startsPdf (c ++ r) = true :=
  isPrefixOf_append_of _ _ _ h

/-! ## Lemmas about check_existing_file -/

theorem check_eq (f : FsFile) :
    check_existing_file (some f) =
      if f.readOk && (checkMagic4 f.content && decide (f.content.length > 1000)) then
        (true, some f)
      else if f.unlinkOk then (false, none) else (false, some f) := by
  cases hr : f.readOk <;> cases hm : checkMagic4 f.content <;>
    cases hl : decide (f.content.length > 1000) <;> cases hu : f.unlinkOk <;>
    simp [check_existing_file, checkBody, hr, hm, hl, hu]

theorem check_true_iff (fs : Fs) :
    (check_existing_file fs).1 = true ↔
      ∃ f, fs = some f ∧ f.readOk = true ∧ checkMagic4 f.content = true ∧
        1000 < f.content.length := by
  cases fs with
  | none => simp [check_existing_file]
  | some f =>
    rw [check_eq]
    by_cases hl : f.content.length > 1000
    · have hld := decide_eq_true hl
      cases hr : f.readOk <;> cases hm : checkMagic4 f.content <;>
        cases hu : f.unlinkOk <;> simp [hr, hm, hu, hld, hl]
    · have hld : decide (f.content.length > 1000) = false := decide_eq_false hl
      cases hr : f.readOk <;> cases hm : checkMagic4 f.content <;>
        cases hu : f.unlinkOk <;> simp [hr, hm, hu, hld, hl]

theorem check_true_eq (fs : Fs) (h : (check_existing_file fs).1 = true) :
    check_existing_file fs = (true, fs) := by
  obtain ⟨f, rfl, hr, hm, hl⟩ := (check_true_iff fs).1 h
  have hld := decide_eq_true hl
  rw [check_eq]
  simp [hr, hm, hld]

theorem check_false_invalid (f : FsFile)
    (h : ¬(f.readOk = true ∧ checkMagic4 f.content = true ∧ 1000 < f.content.length)) :
    (check_existing_file (some f)).1 = false ∧
    (f.unlinkOk = true → (check_existing_file (some f)).2 = none) := by
  rw [check_eq]
  by_cases hl : f.content.length > 1000
  · have hld := decide_eq_true hl
    cases hr : f.readOk <;> cases hm : checkMagic4 f.content <;>
      cases hu : f.unlinkOk <;> simp_all [hld]
  · have hld : decide (f.content.length > 1000) = false := decide_eq_false hl
    cases hr : f.readOk <;> cases hm : checkMagic4 f.content <;>
      cases hu : f.unlinkOk <;> simp_all [hld]
    all_goals (rw [if_neg (by omega)] <;> simp)

/-- Claim C3: `check_existing_file(path)` returns true iff the path exists,
is readable, starts with `%PDF` and has size strictly above 1000 bytes; when
the path exists but fails validation the check returns false and attempts to
delete the file, which succeeds whenever the deletion itself does not raise
(the code swallows deletion errors, so the file survives only if `unlink`
fails too). -/
theorem C3_check_contract :
    (∀ fs : Fs, (check_existing_file fs).1 = true ↔
      ∃ f, fs = some f ∧ f.readOk = true ∧ checkMagic4 f.content = true ∧
        1000 < f.content.length)
    ∧ (∀ f : FsFile,
        ¬(f.readOk = true ∧ checkMagic4 f.content = true ∧ 1000 < f.content.length) →
        (check_existing_file (some f)).1 = false ∧
        (f.unlinkOk = true → (check_existing_file (some f)).2 = none)) :=
  ⟨check_true_iff, check_false_invalid⟩

/-- Witness for C3 at a concrete invalid file (too short, readable,
deletable): the check returns false and the file is removed. -/
theorem C3_check_contract_witness :
    (check_existing_file (some { content := [37] })).1 = false ∧
    (check_existing_file (some { content := [37] })).2 = none := by
  have h := C3_check_contract.2 { content := [37] } (by decide)
  exact ⟨h.1, h.2 rfl⟩

/-- Counterexample to C3 as stated: a file that exists but whose read and
unlink both raise is NOT deleted (the claim demands deletion whenever the
path exists and validation fails), although false is returned. -/
theorem C3_delete_counterexample :
    (check_existing_file (some { content := [], readOk := false, unlinkOk := false })).1
      = false ∧
    (check_existing_file (some { content := [], readOk := false, unlinkOk := false })).2
      = some { content := [], readOk := false, unlinkOk := false } := by decide

/-- Claim C10: `check_existing_file` is total and never propagates an
exception: whenever the body of its `try` block raises (unreadable file,
stat failure, failing unlink), the handler swallows the error and the
function returns false. -/
theorem C10_check_never_throws :
    ∀ (f : FsFile) (e : IOErr), checkBody f = Except.error e →
      (check_existing_file (some f)).1 = false := by
  intro f e h
  cases hu : f.unlinkOk <;> simp [check_existing_file, h, hu]

/-- Witness for C10: a concrete unreadable file makes the body raise, and
the check still returns false. -/
theorem C10_check_never_throws_witness :
    checkBody { content := [], readOk := false } = Except.error IOErr.readErr ∧
    (check_existing_file (some { content := [], readOk := false })).1 = false :=
  ⟨rfl, C10_check_never_throws _ _ rfl⟩

/-! ## Concrete inputs used by witnesses and counterexamples -/

/-- A direct (non-Drive, non-egovcloud) source URL. -/
def urlDirect : Str := "https://host.example/a.pdf".toList

/-- A Google-Drive URL on which none of the three ID patterns matches. -/
def urlNoId : Str := "https://drive.google.com/abc".toList

/-- A transport that always answers HTTP 404. -/
def trBad : Transport := fun _ => { status := 404 }

/-- A transport whose single useful response carries a declared PDF content
type and one well-formed chunk of exactly 1000 bytes starting with `%PDF`. -/
def trGood : Transport := fun _ =>
  { status := 200, contentType := pdfCt, chunks := [pdfMagic ++ List.replicate 996 65] }

/-- A transport that declares `application/pdf`, streams 1004 bytes starting
with `%PDF`, and then dies with a network error while streaming. -/
def trTrunc : Transport := fun _ =>
  { status := 200, contentType := pdfCt,
    chunks := [pdfMagic ++ List.replicate 1000 65], streamError := true }

/-- A transport that declares `application/pdf` but serves 1000 bytes that do
not start with `%PDF` (an error page disguised by its content type). -/
def trFake : Transport := fun _ =>
  { status := 200, contentType := pdfCt, chunks := [List.replicate 1000 65] }

/-- A transport whose responses are irrelevant (used where no call is made). -/
def trAny : Transport := fun _ => {}

/-- A destination file that passes `check_existing_file` (valid signature,
1004 bytes). -/
def validF : FsFile := { content := pdfMagic ++ List.replicate 1000 65 }

/-! ## The noFileId failure path of download_file (claim C4) -/

theorem dfAttempt_noid (url : Str) (tr : Transport)
    (hd : containsSub driveStr url = true) (hx : extract_google_drive_id url = none)
    (fs : Fs) (calls : Nat) :
    dfAttempt url tr fs calls = .error (.noFileId, fs, calls) := by
  unfold dfAttempt
  rw [hd, hx]
  simp

theorem dfLoop_noid (url : Str) (tr : Transport)
    (hd : containsSub driveStr url = true) (hx : extract_google_drive_id url = none) :
    ∀ (rem attempt : Nat) (fs : Fs) (calls : Nat) (waits : List Nat) (made : Nat),
      dfLoop url tr (rem + 1) attempt fs calls waits made =
        { ok := false, fs := fs, calls := calls,
          failure := some { error := .noFileId, attempts := attempt + (rem + 1) },
          waits := waits.reverse ++ dfWaits attempt (rem + 1),
          attemptsMade := made + (rem + 1) } := by
  intro rem
  induction rem with
  | zero =>
    intro attempt fs calls waits made
    simp [dfLoop, dfAttempt_noid url tr hd hx, dfWaits]
  | succ k ih =>
    intro attempt fs calls waits made
    rw [dfLoop, dfAttempt_noid url tr hd hx]
    simp only [if_neg (Nat.succ_ne_zero k)]
    rw [ih (attempt + 1) fs calls (min (2 ^ attempt) 10 :: waits) (made + 1)]
    simp [dfWaits, List.reverse_cons, List.append_assoc]
    omega

/-- Claim C4 (amended): a `drive.google.com` URL on which no ID-extraction
pattern matches makes every attempt fail before any transport call, but the
failure is retried with backoff like any other error: the task performs
exactly `retry_count` attempts, sleeps the usual backoff sequence between
them, and is then recorded as failed with a `noFileId` error; the failure is
confined to the task's own result. -/
theorem C4_no_pattern_retried (rc : Nat) (url : Str) (tr : Transport)
    (hd : containsSub driveStr url = true) (hx : extract_google_drive_id url = none)
    (hrc : 1 ≤ rc) :
    download_file rc url tr none =
      { ok := false, fs := none, calls := 0,
        failure := some { error := .noFileId, attempts := rc },
        waits := dfWaits 0 rc, attemptsMade := rc } := by
  obtain ⟨k, rfl⟩ : ∃ k, rc = k + 1 := ⟨rc - 1, by omega⟩
  show dfLoop url tr (k + 1) 0 none 0 [] 0 = _
  rw [dfLoop_noid url tr hd hx k 0 none 0 [] 0]
  simp

/-- Witness for C4 (amended) at the concrete unmatched URL and two attempts:
both attempts are made, one one-second backoff sleep happens in between, no
transport call is issued, and the task is recorded as failed. -/
theorem C4_no_pattern_retried_witness :
    download_file 2 urlNoId trAny none =
      { ok := false, fs := none, calls := 0,
        failure := some { error := .noFileId, attempts := 2 },
        waits := [1], attemptsMade := 2 } := by
  have h := C4_no_pattern_retried 2 urlNoId trAny (by decide) (by decide) (by omega)
  rw [h]
  rfl

/-- Counterexample to C4 as stated: the claim says a no-pattern-match
resolution failure is permanent — recorded as failed without further retry
attempts and without backoff — but on the unmatched URL the code makes two
attempts and sleeps once in between. -/
theorem C4_counterexample :
    (download_file 2 urlNoId trAny none).attemptsMade = 2 ∧
    (download_file 2 urlNoId trAny none).waits = [1] := by decide

/-! ## Attempts under an always-failing transport -/

theorem dfFetch_allbad (d : Str) (tr : Transport) (h : ∀ n, 400 ≤ (tr n).status)
    (fs : Fs) (calls : Nat) :
    dfFetch d tr fs calls = .error (.httpError (tr calls).status, fs, calls + 1) := by
  have h200 : ((tr calls).status == 200) = false := by
    rw [beq_eq_false_iff_ne]
    have := h calls
    omega
  unfold dfFetch dfBody
  simp [h200, h calls]

theorem dfAttempt_allbad (url : Str) (tr : Transport) (h : ∀ n, 400 ≤ (tr n).status)
    (fs : Fs) (calls : Nat) :
    ∃ e fs' calls', dfAttempt url tr fs calls = .error (e, fs', calls') := by
  unfold dfAttempt
  by_cases hd : containsSub driveStr url = true
  · cases hx : extract_google_drive_id url with
    | none => exact ⟨.noFileId, fs, calls, by simp [hd, hx]⟩
    | some fid =>
      exact ⟨.httpError (tr calls).status, fs, calls + 1,
        by simp [hd, hx, dfFetch_allbad _ tr h fs calls]⟩
  · rw [Bool.not_eq_true] at hd
    by_cases he : containsSub egovStr url = true
    · exact ⟨.httpError (tr calls).status, fs, calls + 1,
        by simp [hd, he, dfFetch_allbad _ tr h fs calls]⟩
    · rw [Bool.not_eq_true] at he
      exact ⟨.httpError (tr calls).status, fs, calls + 1,
        by simp [hd, he, dfFetch_allbad _ tr h fs calls]⟩

/-- Generic shape of the retry loop when every attempt raises: the loop runs
through all remaining attempts, sleeps the standard backoff between them, and
records a single failure whose attempt count is the total attempt budget. -/
theorem dfLoop_allfail (url : Str) (tr : Transport)
    (h : ∀ fs calls, ∃ e fs' calls', dfAttempt url tr fs calls = .error (e, fs', calls')) :
    ∀ (rem attempt : Nat) (fs : Fs) (calls : Nat) (waits : List Nat) (made : Nat),
      (dfLoop url tr (rem + 1) attempt fs calls waits made).ok = false ∧
      (dfLoop url tr (rem + 1) attempt fs calls waits made).success = none ∧
      (∃ e, (dfLoop url tr (rem + 1) attempt fs calls waits made).failure =
        some { error := e, attempts := attempt + (rem + 1) }) ∧
      (dfLoop url tr (rem + 1) attempt fs calls waits made).waits =
        waits.reverse ++ dfWaits attempt (rem + 1) ∧
      (dfLoop url tr (rem + 1) attempt fs calls waits made).attemptsMade = made + (rem + 1) := by
  intro rem
  induction rem with
  | zero =>
    intro attempt fs calls waits made
    obtain ⟨e, fs', calls', hE⟩ := h fs calls
    refine ⟨?_, ?_, ⟨e, ?_⟩, ?_, ?_⟩ <;> simp [dfLoop, hE, dfWaits]
  | succ k ih =>
    intro attempt fs calls waits made
    obtain ⟨e, fs', calls', hE⟩ := h fs calls
    have hstep : dfLoop url tr (k + 1 + 1) attempt fs calls waits made =
        dfLoop url tr (k + 1) (attempt + 1) fs' calls'
          (min (2 ^ attempt) 10 :: waits) (made + 1) := by
      rw [dfLoop, hE]
      simp
    rw [hstep]
    obtain ⟨h1, h2, ⟨e', h3⟩, h4, h5⟩ :=
      ih (attempt + 1) fs' calls' (min (2 ^ attempt) 10 :: waits) (made + 1)
    refine ⟨h1, h2, ⟨e', ?_⟩, ?_, ?_⟩
    · rw [h3]
      have : attempt + 1 + (k + 1) = attempt + (k + 1 + 1) := by omega
      rw [this]
    · rw [h4, dfWaits, List.reverse_cons, List.append_assoc]
      simp
    · rw [h5]
      omega

/-! ## The always-failing advanced attempt -/

theorem attempt_download_allbad (tr : Transport) (h : ∀ n, 400 ≤ (tr n).status)
    (g : Bool) (fs : Fs) (calls : Nat) :
    attempt_download tr g fs calls =
      .error (.httpError (tr calls).status, fs, calls + 1) := by
  have h200 : ((tr calls).status == 200) = false := by
    rw [beq_eq_false_iff_ne]
    have := h calls
    omega
  unfold attempt_download abBody
  simp [h200, h calls]

theorem tryMethods_allbad (tr : Transport) (h : ∀ n, 400 ≤ (tr n).status) :
    ∀ (n : Nat) (fs : Fs) (calls : Nat),
      tryMethods tr n fs calls = .error (.allMethodsFailed, fs, calls + n) := by
  intro n
  induction n with
  | zero => intro fs calls; rfl
  | succ k ih =>
    intro fs calls
    rw [tryMethods, attempt_download_allbad tr h true fs calls]
    show tryMethods tr k fs (calls + 1) = _
    rw [ih fs (calls + 1)]
    have : calls + 1 + k = calls + (k + 1) := by omega
    rw [this]

theorem advAttempt_allbad (url : Str) (tr : Transport) (h : ∀ n, 400 ≤ (tr n).status)
    (fs : Fs) (calls : Nat) :
    ∃ e fs' calls', advAttempt url tr fs calls = .error (e, fs', calls') := by
  unfold advAttempt
  by_cases hd : containsSub driveStr url = true
  · cases hx : extract_google_drive_id url with
    | none => exact ⟨.noFileId, fs, calls, by simp [hd, hx]⟩
    | some fid =>
      exact ⟨.allMethodsFailed, fs, calls + 4, by simp [hd, hx, tryMethods_allbad tr h]⟩
  · rw [Bool.not_eq_true] at hd
    by_cases he : containsSub egovStr url = true
    · exact ⟨.httpError (tr calls).status, fs, calls + 1,
        by simp [hd, he, attempt_download_allbad tr h false fs calls]⟩
    · rw [Bool.not_eq_true] at he
      exact ⟨.httpError (tr calls).status, fs, calls + 1,
        by simp [hd, he, attempt_download_allbad tr h false fs calls]⟩

theorem advLoop_allfail (url : Str) (tr : Transport) (rc : Nat)
    (h : ∀ fs calls, ∃ e fs' calls', advAttempt url tr fs calls = .error (e, fs', calls')) :
    ∀ (rem attempt : Nat) (fs : Fs) (calls : Nat) (waits : List Nat) (made : Nat),
      (advLoop url tr rc (rem + 1) attempt fs calls waits made).ok = false ∧
      (advLoop url tr rc (rem + 1) attempt fs calls waits made).newly = none ∧
      (∃ e, (advLoop url tr rc (rem + 1) attempt fs calls waits made).stillFailed =
        some { error := e, attempts := rc }) ∧
      (advLoop url tr rc (rem + 1) attempt fs calls waits made).waitsHalf =
        waits.reverse ++ advWaits attempt (rem + 1) ∧
      (advLoop url tr rc (rem + 1) attempt fs calls waits made).attemptsMade =
        made + (rem + 1) := by
  intro rem
  induction rem with
  | zero =>
    intro attempt fs calls waits made
    obtain ⟨e, fs', calls', hE⟩ := h fs calls
    refine ⟨?_, ?_, ⟨e, ?_⟩, ?_, ?_⟩ <;> simp [advLoop, hE, advWaits]
  | succ k ih =>
    intro attempt fs calls waits made
    obtain ⟨e, fs', calls', hE⟩ := h fs calls
    have hstep : advLoop url tr rc (k + 1 + 1) attempt fs calls waits made =
        advLoop url tr rc (k + 1) (attempt + 1) fs' calls'
          ((2 ^ (attempt + 1) + attempt) :: waits) (made + 1) := by
      rw [advLoop, hE]
      simp
    rw [hstep]
    obtain ⟨h1, h2, h3, h4, h5⟩ :=
      ih (attempt + 1) fs' calls' ((2 ^ (attempt + 1) + attempt) :: waits) (made + 1)
    refine ⟨h1, h2, h3, ?_, ?_⟩
    · rw [h4, advWaits, List.reverse_cons, List.append_assoc]
      simp
    · rw [h5]
      omega

/-! ## Properties of the backoff sequences -/

theorem dfWaits_chain : ∀ (n a : Nat), List.Chain' (· ≤ ·) (dfWaits a n)
  | 0, _ => by simp [dfWaits]
  | 1, _ => by simp [dfWaits]
  | n + 2, a => by
    rw [dfWaits]
    cases n with
    | zero => simp [dfWaits]
    | succ m =>
      rw [dfWaits, List.chain'_cons]
      refine ⟨min_le_min (Nat.pow_le_pow_right (by omega) (by omega)) (le_refl 10), ?_⟩
      have h := dfWaits_chain (m + 2) (a + 1)
      rw [dfWaits] at h
      exact h

theorem dfWaits_le10 : ∀ (n a : Nat), ∀ w ∈ dfWaits a n, w ≤ 10
  | 0, _ => by simp [dfWaits]
  | 1, _ => by simp [dfWaits]
  | n + 2, a => by
    rw [dfWaits]
    intro w hw
    rcases List.mem_cons.1 hw with h | h
    · subst h
      exact Nat.min_le_right _ _
    · exact dfWaits_le10 (n + 1) (a + 1) w h

theorem advWaits_chain : ∀ (n a : Nat), List.Chain' (· ≤ ·) (advWaits a n)
  | 0, _ => by simp [advWaits]
  | 1, _ => by simp [advWaits]
  | n + 2, a => by
    rw [advWaits]
    cases n with
    | zero => simp [advWaits]
    | succ m =>
      rw [advWaits, List.chain'_cons]
      refine ⟨?_, ?_⟩
      · have h2 : 2 ^ (a + 1) ≤ 2 ^ (a + 1 + 1) := Nat.pow_le_pow_right (by omega) (by omega)
        omega
      · have h := advWaits_chain (m + 2) (a + 1)
        rw [advWaits] at h
        exact h

theorem advWaits_le20 (rc : Nat) (h : rc ≤ 5) : ∀ w ∈ advWaits 0 rc, w ≤ 20 := by
  interval_cases rc <;> decide

/-- Claim C5: against a transport that always fails (HTTP error on every
response), `download_file` performs exactly `retry_count` attempts and then
records a single failure with that attempt count, sleeping the sequence
`min(2 ** a, 10)` between attempts — non-decreasing and capped at 10 s; and
`download_file_advanced` also performs exactly `retry_count` attempts with
the non-decreasing sequence `2 ** a + a/2` (in half-second units here),
which stays at or below 10 s for the retry counts the scripts configure
(`retry_count ≤ 5`; the advanced script itself has no explicit cap). -/
theorem C5_retry_budget (rc : Nat) (urlA urlB : Str) (trA trB : Transport) (fsB : Fs)
    (hA : ∀ n, 400 ≤ (trA n).status) (hB : ∀ n, 400 ≤ (trB n).status) (hrc : 1 ≤ rc) :
    ((download_file rc urlA trA none).ok = false ∧
     (download_file rc urlA trA none).attemptsMade = rc ∧
     (∃ e, (download_file rc urlA trA none).failure = some { error := e, attempts := rc }) ∧
     (download_file rc urlA trA none).waits = dfWaits 0 rc ∧
     List.Chain' (· ≤ ·) (download_file rc urlA trA none).waits ∧
     (∀ w ∈ (download_file rc urlA trA none).waits, w ≤ 10)) ∧
    ((download_file_advanced rc urlB trB fsB).ok = false ∧
     (download_file_advanced rc urlB trB fsB).attemptsMade = rc ∧
     (∃ e, (download_file_advanced rc urlB trB fsB).stillFailed =
       some { error := e, attempts := rc }) ∧
     (download_file_advanced rc urlB trB fsB).waitsHalf = advWaits 0 rc ∧
     List.Chain' (· ≤ ·) (download_file_advanced rc urlB trB fsB).waitsHalf ∧
     (rc ≤ 5 → ∀ w ∈ (download_file_advanced rc urlB trB fsB).waitsHalf, w ≤ 20)) := by
  obtain ⟨k, rfl⟩ : ∃ k, rc = k + 1 := ⟨rc - 1, by omega⟩
  constructor
  · have hd : download_file (k + 1) urlA trA none = dfLoop urlA trA (k + 1) 0 none 0 [] 0 := rfl
    obtain ⟨h1, _h2, ⟨e, h3⟩, h4, h5⟩ :=
      dfLoop_allfail urlA trA (fun fs calls => dfAttempt_allbad urlA trA hA fs calls)
        k 0 none 0 [] 0
    rw [hd]
    simp only [List.reverse_nil, List.nil_append] at h4
    refine ⟨h1, by rw [h5, Nat.zero_add], ⟨e, by rw [h3, Nat.zero_add]⟩, h4, ?_, ?_⟩
    · rw [h4]; exact dfWaits_chain (k + 1) 0
    · rw [h4]; exact dfWaits_le10 (k + 1) 0
  · have hd : download_file_advanced (k + 1) urlB trB fsB =
        advLoop urlB trB (k + 1) (k + 1) 0 fsB 0 [] 0 := rfl
    obtain ⟨h1, _h2, ⟨e, h3⟩, h4, h5⟩ :=
      advLoop_allfail urlB trB (k + 1)
        (fun fs calls => advAttempt_allbad urlB trB hB fs calls) k 0 fsB 0 [] 0
    rw [hd]
    simp only [List.reverse_nil, List.nil_append] at h4
    refine ⟨h1, by rw [h5, Nat.zero_add], ⟨e, h3⟩, h4, ?_, ?_⟩
    · rw [h4]; exact advWaits_chain (k + 1) 0
    · rw [h4]; exact advWaits_le20 (k + 1)

/-- Witness for C5 at the configured attempt budgets (2 in the bulk script,
5 in the retry script) against a constant HTTP-404 transport. -/
theorem C5_retry_budget_witness :
    (download_file 2 urlDirect trBad none).attemptsMade = 2 ∧
    (download_file 2 urlDirect trBad none).waits = dfWaits 0 2 ∧
    (download_file_advanced 5 urlDirect trBad none).attemptsMade = 5 ∧
    (download_file_advanced 5 urlDirect trBad none).waitsHalf = advWaits 0 5 := by
  have h2 := C5_retry_budget 2 urlDirect urlDirect trBad trBad none
    (fun _ => by norm_num [trBad]) (fun _ => by norm_num [trBad]) (by omega)
  have h5 := C5_retry_budget 5 urlDirect urlDirect trBad trBad none
    (fun _ => by norm_num [trBad]) (fun _ => by norm_num [trBad]) (by omega)
  exact ⟨h2.1.2.1, h2.1.2.2.2.1, h5.2.2.1, h5.2.2.2.2.1⟩

/-! ## Stream failures leave the written bytes behind (claim C1) -/

theorem dfFetch_pdfct_stream (d : Str) (tr : Transport)
    (hd : containsSub driveStr d = false)
    (h : ∀ n, (tr n).status = 200 ∧ containsSub pdfCt (tr n).contentType = true ∧
      (tr n).streamError = true)
    (fs : Fs) (calls : Nat) :
    dfFetch d tr fs calls =
      .error (.streamFail, some { content := bytesJoin (tr calls).chunks }, calls + 1) := by
  obtain ⟨h200, hct, hse⟩ := h calls
  unfold dfFetch dfBody
  simp [hd, h200, hct, hse]

theorem dfLoop_stream (url : Str) (tr : Transport)
    (hA : ∀ fs calls, dfAttempt url tr fs calls =
      .error (.streamFail, some { content := bytesJoin (tr calls).chunks }, calls + 1)) :
    ∀ (rem attempt : Nat) (fs : Fs) (calls : Nat) (waits : List Nat) (made : Nat),
      (dfLoop url tr (rem + 1) attempt fs calls waits made).ok = false ∧
      (dfLoop url tr (rem + 1) attempt fs calls waits made).failure.isSome = true ∧
      (dfLoop url tr (rem + 1) attempt fs calls waits made).fs =
        some { content := bytesJoin (tr (calls + rem)).chunks } := by
  intro rem
  induction rem with
  | zero =>
    intro attempt fs calls waits made
    refine ⟨?_, ?_, ?_⟩ <;> simp [dfLoop, hA fs calls]
  | succ k ih =>
    intro attempt fs calls waits made
    have hstep : dfLoop url tr (k + 1 + 1) attempt fs calls waits made =
        dfLoop url tr (k + 1) (attempt + 1)
          (some { content := bytesJoin (tr calls).chunks }) (calls + 1)
          (min (2 ^ attempt) 10 :: waits) (made + 1) := by
      rw [dfLoop, hA fs calls]
      simp
    rw [hstep]
    obtain ⟨h1, h2, h3⟩ := ih (attempt + 1)
      (some { content := bytesJoin (tr calls).chunks }) (calls + 1)
      (min (2 ^ attempt) 10 :: waits) (made + 1)
    refine ⟨h1, h2, ?_⟩
    rw [h3]
    have : calls + 1 + k = calls + (k + 1) := by omega
    rw [this]

/-- Claim C1 (amended): a failed `download_file` task performs no cleanup of
the destination: when the responses declare a PDF content type and die while
streaming, every attempt overwrites the destination with the bytes received
so far and the final failed state leaves exactly the bytes of the last
attempt on disk (which may even pass the existing-file validation). -/
theorem C1_no_cleanup (rc : Nat) (url : Str) (tr : Transport)
    (hd : containsSub driveStr url = false) (he : containsSub egovStr url = false)
    (h : ∀ n, (tr n).status = 200 ∧ containsSub pdfCt (tr n).contentType = true ∧
      (tr n).streamError = true)
    (hrc : 1 ≤ rc) :
    (download_file rc url tr none).ok = false ∧
    (download_file rc url tr none).failure.isSome = true ∧
    (download_file rc url tr none).fs =
      some { content := bytesJoin (tr (rc - 1)).chunks } := by
  obtain ⟨k, rfl⟩ : ∃ k, rc = k + 1 := ⟨rc - 1, by omega⟩
  have hA : ∀ fs calls, dfAttempt url tr fs calls =
      .error (.streamFail, some { content := bytesJoin (tr calls).chunks }, calls + 1) := by
    intro fs calls
    unfold dfAttempt
    rw [hd, he]
    simp only [Bool.false_eq_true, if_false]
    exact dfFetch_pdfct_stream url tr hd h fs calls
  have hrun : download_file (k + 1) url tr none = dfLoop url tr (k + 1) 0 none 0 [] 0 := rfl
  obtain ⟨h1, h2, h3⟩ := dfLoop_stream url tr hA k 0 none 0 [] 0
  rw [hrun]
  refine ⟨h1, h2, ?_⟩
  rw [h3]
  norm_num

/-- Witness for C1 (amended): one attempt against the truncating transport
fails and leaves the 1004 streamed bytes at the destination. -/
theorem C1_no_cleanup_witness :
    (download_file 1 urlDirect trTrunc none).ok = false ∧
    (download_file 1 urlDirect trTrunc none).failure.isSome = true ∧
    (download_file 1 urlDirect trTrunc none).fs =
      some { content := bytesJoin (trTrunc 0).chunks } := by
  have hct : containsSub pdfCt pdfCt = true := by decide
  have h := C1_no_cleanup 1 urlDirect trTrunc (by decide) (by decide)
    (fun _ => ⟨rfl, hct, rfl⟩) (by omega)
  exact h

set_option maxRecDepth 40000 in
/-- Counterexample to C1 as stated: after the task is recorded as failed,
the destination holds a 1004-byte file starting with `%PDF` — a file that
`check_existing_file` accepts as valid, so a failed task can leave behind a
corrupt (truncated) file that later runs will trust. -/
theorem C1_counterexample :
    (download_file 2 urlDirect trTrunc none).ok = false ∧
    (download_file 2 urlDirect trTrunc none).failure.isSome = true ∧
    (check_existing_file (download_file 2 urlDirect trTrunc none).fs).1 = true := by decide

/-! ## What a successful attempt guarantees (claim C2) -/

theorem dfBody_ok_spec (resp : HttpResponse) (fs : Fs) (c2 : Nat)
    (content : Bytes) (fs' : Fs) (calls' : Nat)
    (h : dfBody resp fs c2 = .ok (content, fs', calls')) :
    fs' = some { content := content } ∧ 1000 ≤ content.length := by
  unfold dfBody at h
  dsimp only at h
  repeat' split at h
  all_goals simp_all
  all_goals (obtain ⟨hc, hfs, hcalls⟩ := h; subst hc; subst hfs)
  all_goals repeat' apply And.intro
  all_goals first
  | rfl
  | ((try simp only [List.length_append]); omega)

theorem dfBody_ok_sig (resp : HttpResponse) (fs : Fs) (c2 : Nat)
    (content : Bytes) (fs' : Fs) (calls' : Nat)
    (hpdf : containsSub pdfCt resp.contentType = false)
    (hoct : containsSub octCt resp.contentType = false)
    (h : dfBody resp fs c2 = .ok (content, fs', calls')) :
    startsPdf content = true := by
  unfold dfBody at h
  dsimp only at h
  rw [hpdf, hoct] at h
  repeat' split at h
  all_goals simp_all
  all_goals (obtain ⟨hc, hfs, hcalls⟩ := h; subst hc)
  all_goals (apply startsPdf_append; assumption)

theorem abBody_ok_spec (resp : HttpResponse) (fs : Fs) (c2 : Nat)
    (content : Bytes) (fs' : Fs) (calls' : Nat)
    (h : abBody resp fs c2 = .ok (content, fs', calls')) :
    fs' = some { content := content } ∧ startsPdf content = true ∧
      1000 ≤ content.length := by
  unfold abBody at h
  dsimp only at h
  repeat' split at h
  all_goals simp_all
  all_goals (obtain ⟨hc, hfs, hcalls⟩ := h; subst hc; subst hfs)
  all_goals repeat' apply And.intro
  all_goals first
  | rfl
  | (apply startsPdf_append; assumption)
  | ((try simp only [List.length_append]); omega)

/-- A fetch uses either the original response or (after the confirm-token
refetch) the next one; in both cases it is the common body applied to some
response of the transport. -/
theorem dfFetch_cases (d : Str) (tr : Transport) (fs : Fs) (calls : Nat) :
    dfFetch d tr fs calls = dfBody (tr calls) fs (calls + 1) ∨
    dfFetch d tr fs calls = dfBody (tr (calls + 1)) fs (calls + 2) := by
  unfold dfFetch
  by_cases hc : (containsSub driveStr d && ((tr calls).status == 200) &&
      containsSub htmlCt (tr calls).contentType && (tr calls).confirmToken.isSome) = true
  · right; simp [hc]
  · left; rw [Bool.not_eq_true] at hc; simp [hc]

theorem attempt_download_cases (tr : Transport) (g : Bool) (fs : Fs) (calls : Nat) :
    attempt_download tr g fs calls = abBody (tr calls) fs (calls + 1) ∨
    attempt_download tr g fs calls = abBody (tr (calls + 1)) fs (calls + 2) := by
  unfold attempt_download
  by_cases hc : (g && ((tr calls).status == 200) &&
      containsSub htmlCt (tr calls).contentType) = true
  · cases hv : (tr calls).virusMarker
    · left; simp [hc, hv]
    · cases hct : (tr calls).confirmToken with
      | none =>
        cases hut : (tr calls).uuidToken with
        | none => left; simp [hc, hv, hct, hut]
        | some u => right; simp [hc, hv, hct, hut]
      | some c => right; simp [hc, hv, hct]
  · left; rw [Bool.not_eq_true] at hc; simp [hc]

theorem dfFetch_ok_spec (d : Str) (tr : Transport) (fs : Fs) (calls : Nat)
    (content : Bytes) (fs' : Fs) (calls' : Nat)
    (h : dfFetch d tr fs calls = .ok (content, fs', calls')) :
    fs' = some { content := content } ∧ 1000 ≤ content.length := by
  rcases dfFetch_cases d tr fs calls with hEq | hEq <;>
    (rw [hEq] at h; exact dfBody_ok_spec _ _ _ _ _ _ h)

theorem dfFetch_ok_sig (d : Str) (tr : Transport) (fs : Fs) (calls : Nat)
    (content : Bytes) (fs' : Fs) (calls' : Nat)
    (hct : ∀ n, containsSub pdfCt (tr n).contentType = false ∧
      containsSub octCt (tr n).contentType = false)
    (h : dfFetch d tr fs calls = .ok (content, fs', calls')) :
    startsPdf content = true := by
  rcases dfFetch_cases d tr fs calls with hEq | hEq <;>
    (rw [hEq] at h; exact dfBody_ok_sig _ _ _ _ _ _ (hct _).1 (hct _).2 h)

theorem dfAttempt_ok_spec (url : Str) (tr : Transport) (fs : Fs) (calls : Nat)
    (content : Bytes) (fs' : Fs) (calls' : Nat)
    (h : dfAttempt url tr fs calls = .ok (content, fs', calls')) :
    fs' = some { content := content } ∧ 1000 ≤ content.length := by
  unfold dfAttempt at h
  repeat' split at h
  all_goals first
  | exact dfFetch_ok_spec _ tr fs calls _ _ _ h
  | simp_all

theorem dfAttempt_ok_sig (url : Str) (tr : Transport) (fs : Fs) (calls : Nat)
    (content : Bytes) (fs' : Fs) (calls' : Nat)
    (hct : ∀ n, containsSub pdfCt (tr n).contentType = false ∧
      containsSub octCt (tr n).contentType = false)
    (h : dfAttempt url tr fs calls = .ok (content, fs', calls')) :
    startsPdf content = true := by
  unfold dfAttempt at h
  repeat' split at h
  all_goals first
  | exact dfFetch_ok_sig _ tr fs calls _ _ _ hct h
  | simp_all

theorem attempt_download_ok_spec (tr : Transport) (g : Bool) (fs : Fs) (calls : Nat)
    (content : Bytes) (fs' : Fs) (calls' : Nat)
    (h : attempt_download tr g fs calls = .ok (content, fs', calls')) :
    fs' = some { content := content } ∧ startsPdf content = true ∧
      1000 ≤ content.length := by
  rcases attempt_download_cases tr g fs calls with hEq | hEq <;>
    (rw [hEq] at h; exact abBody_ok_spec _ _ _ _ _ _ h)

theorem tryMethods_ok_spec (tr : Transport) :
    ∀ (n : Nat) (fs : Fs) (calls : Nat) (content : Bytes) (fs' : Fs) (calls' : Nat),
      tryMethods tr n fs calls = .ok (content, fs', calls') →
      fs' = some { content := content } ∧ startsPdf content = true ∧
        1000 ≤ content.length := by
  intro n
  induction n with
  | zero => intro fs calls content fs' calls' h; simp [tryMethods] at h
  | succ k ih =>
    intro fs calls content fs' calls' h
    rw [tryMethods] at h
    split at h
    · next r heq =>
      cases h
      exact attempt_download_ok_spec tr true fs calls _ _ _ heq
    · next e heq => exact ih _ _ _ _ _ h

theorem advAttempt_ok_spec (url : Str) (tr : Transport) (fs : Fs) (calls : Nat)
    (content : Bytes) (fs' : Fs) (calls' : Nat)
    (h : advAttempt url tr fs calls = .ok (content, fs', calls')) :
    fs' = some { content := content } ∧ startsPdf content = true ∧
      1000 ≤ content.length := by
  unfold advAttempt at h
  repeat' split at h
  all_goals first
  | exact tryMethods_ok_spec tr _ fs calls _ _ _ h
  | exact attempt_download_ok_spec tr false fs calls _ _ _ h
  | simp_all

theorem dfLoop_success_spec (url : Str) (tr : Transport) :
    ∀ (rem attempt : Nat) (fs : Fs) (calls : Nat) (waits : List Nat) (made : Nat)
      (s : SuccessRec),
      (dfLoop url tr rem attempt fs calls waits made).success = some s →
      ∃ c, (dfLoop url tr rem attempt fs calls waits made).fs = some { content := c } ∧
        c.length = s.fileSize ∧ 1000 ≤ s.fileSize ∧ s.status = .newly_downloaded := by
  intro rem
  induction rem with
  | zero =>
    intro attempt fs calls waits made s h
    simp [dfLoop] at h
  | succ k ih =>
    intro attempt fs calls waits made s h
    rw [dfLoop] at h ⊢
    cases hA : dfAttempt url tr fs calls with
    | ok v =>
      obtain ⟨content, fs', calls'⟩ := v
      rw [hA] at h
      dsimp only at h ⊢
      obtain ⟨hfs, hlen⟩ := dfAttempt_ok_spec url tr fs calls content fs' calls' hA
      injection h with h2
      subst h2
      exact ⟨content, hfs, rfl, hlen, rfl⟩
    | error v =>
      obtain ⟨e, fs', calls'⟩ := v
      rw [hA] at h
      dsimp only at h ⊢
      rcases k with _ | j
      · simp at h
      · have hne : ¬ (j + 1 = 0) := by omega
        simp only [if_neg hne] at h ⊢
        exact ih (attempt + 1) fs' calls' _ (made + 1) s h

theorem dfLoop_ok_sig (url : Str) (tr : Transport)
    (hct : ∀ n, containsSub pdfCt (tr n).contentType = false ∧
      containsSub octCt (tr n).contentType = false) :
    ∀ (rem attempt : Nat) (fs : Fs) (calls : Nat) (waits : List Nat) (made : Nat),
      (dfLoop url tr rem attempt fs calls waits made).ok = true →
      ∃ c, (dfLoop url tr rem attempt fs calls waits made).fs = some { content := c } ∧
        startsPdf c = true := by
  intro rem
  induction rem with
  | zero =>
    intro attempt fs calls waits made h
    simp [dfLoop] at h
  | succ k ih =>
    intro attempt fs calls waits made h
    rw [dfLoop] at h ⊢
    cases hA : dfAttempt url tr fs calls with
    | ok v =>
      obtain ⟨content, fs', calls'⟩ := v
      rw [hA] at h
      dsimp only at h ⊢
      obtain ⟨hfs, hlen⟩ := dfAttempt_ok_spec url tr fs calls content fs' calls' hA
      exact ⟨content, hfs, dfAttempt_ok_sig url tr fs calls content fs' calls' hct hA⟩
    | error v =>
      obtain ⟨e, fs', calls'⟩ := v
      rw [hA] at h
      dsimp only at h ⊢
      rcases k with _ | j
      · simp at h
      · have hne : ¬ (j + 1 = 0) := by omega
        simp only [if_neg hne] at h ⊢
        exact ih (attempt + 1) fs' calls' _ (made + 1) h

theorem advLoop_ok_spec (url : Str) (tr : Transport) (rc : Nat) :
    ∀ (rem attempt : Nat) (fs : Fs) (calls : Nat) (waits : List Nat) (made : Nat),
      (advLoop url tr rc rem attempt fs calls waits made).ok = true →
      ∃ c, (advLoop url tr rc rem attempt fs calls waits made).fs =
          some { content := c } ∧
        startsPdf c = true ∧ 1000 ≤ c.length ∧
        (∃ a, (advLoop url tr rc rem attempt fs calls waits made).newly =
          some { fileSize := c.length, status := .newly_downloaded, attempt := a }) ∧
        (advLoop url tr rc rem attempt fs calls waits made).stillFailed = none := by
  intro rem
  induction rem with
  | zero =>
    intro attempt fs calls waits made h
    simp [advLoop] at h
  | succ k ih =>
    intro attempt fs calls waits made h
    rw [advLoop] at h ⊢
    cases hA : advAttempt url tr fs calls with
    | ok v =>
      obtain ⟨content, fs', calls'⟩ := v
      rw [hA] at h
      dsimp only at h ⊢
      obtain ⟨hfs, hsig, hlen⟩ := advAttempt_ok_spec url tr fs calls content fs' calls' hA
      exact ⟨content, hfs, hsig, hlen, ⟨attempt + 1, rfl⟩, rfl⟩
    | error v =>
      obtain ⟨e, fs', calls'⟩ := v
      rw [hA] at h
      dsimp only at h ⊢
      rcases k with _ | j
      · simp at h
      · have hne : ¬ (j + 1 = 0) := by omega
        simp only [if_neg hne] at h ⊢
        exact ih (attempt + 1) fs' calls' _ (made + 1) h

/-! ## download_file at the top level -/

theorem download_file_check_true (rc : Nat) (url : Str) (tr : Transport) (fs0 : Fs)
    (h : (check_existing_file fs0).1 = true) :
    download_file rc url tr fs0 =
      { ok := true, fs := fs0, calls := 0,
        success := some { fileSize := fsSize fs0, status := .existing_file, attempt := 0 } } := by
  unfold download_file
  rw [check_true_eq fs0 h]
  simp

theorem download_file_check_false (rc : Nat) (url : Str) (tr : Transport) (fs0 : Fs)
    (h : (check_existing_file fs0).1 = false) :
    download_file rc url tr fs0 = dfLoop url tr rc 0 (check_existing_file fs0).2 0 [] 0 := by
  unfold download_file
  dsimp only
  rw [h]
  simp

/-- Claim C2 (amended): every success reported by `download_file` carries a
file of size at least 1000 bytes at the destination; its `%PDF` signature is
guaranteed for every response only when the declared content type contains
neither `application/pdf` nor `application/octet-stream` (the trusted
content-type branch skips the signature check); `_attempt_download` of the
retry script validates the signature and the size floor on every response. -/
theorem C2_success_validation :
    (∀ (rc : Nat) (url : Str) (tr : Transport) (fs0 : Fs) (s : SuccessRec),
      (download_file rc url tr fs0).success = some s →
      ∃ f, (download_file rc url tr fs0).fs = some f ∧
        f.content.length = s.fileSize ∧ 1000 ≤ s.fileSize) ∧
    (∀ (rc : Nat) (url : Str) (tr : Transport) (fs0 : Fs),
      (∀ n, containsSub pdfCt (tr n).contentType = false ∧
        containsSub octCt (tr n).contentType = false) →
      (download_file rc url tr fs0).ok = true →
      ∃ f, (download_file rc url tr fs0).fs = some f ∧ startsPdf f.content = true) ∧
    (∀ (rc : Nat) (url : Str) (tr : Transport) (fs0 : Fs),
      (download_file_advanced rc url tr fs0).ok = true →
      ∃ f, (download_file_advanced rc url tr fs0).fs = some f ∧
        startsPdf f.content = true ∧ 1000 ≤ f.content.length) := by
  refine ⟨?_, ?_, ?_⟩
  · intro rc url tr fs0 s h
    cases hb : (check_existing_file fs0).1
    · rw [download_file_check_false rc url tr fs0 hb] at h ⊢
      obtain ⟨c, hfs, hlen, hsz, _⟩ := dfLoop_success_spec url tr rc 0 _ 0 [] 0 s h
      exact ⟨{ content := c }, hfs, hlen, hsz⟩
    · rw [download_file_check_true rc url tr fs0 hb] at h ⊢
      obtain ⟨f, rfl, _, hm, hl⟩ := (check_true_iff fs0).1 hb
      dsimp at h ⊢
      rw [← Option.some.injEq] at h
      cases h
      exact ⟨f, rfl, rfl, by dsimp [fsSize]; omega⟩
  · intro rc url tr fs0 hct h
    cases hb : (check_existing_file fs0).1
    · rw [download_file_check_false rc url tr fs0 hb] at h ⊢
      obtain ⟨c, hfs, hsig⟩ := dfLoop_ok_sig url tr hct rc 0 _ 0 [] 0 h
      exact ⟨{ content := c }, hfs, hsig⟩
    · rw [download_file_check_true rc url tr fs0 hb]
      obtain ⟨f, rfl, _, hm, hl⟩ := (check_true_iff fs0).1 hb
      exact ⟨f, rfl, startsPdf_of_checkMagic4 _ hm⟩
  · intro rc url tr fs0 h
    obtain ⟨c, hfs, hsig, hlen, _, _⟩ := advLoop_ok_spec url tr rc rc 0 fs0 0 [] 0 h
    exact ⟨{ content := c }, hfs, hsig, hlen⟩

set_option maxRecDepth 40000 in
/-- Witness for C2 (amended): the retry script's downloader succeeds on a
well-formed 1000-byte PDF response and the destination then holds a file that
starts with `%PDF` and meets the size floor. -/
theorem C2_success_validation_witness :
    ∃ f, (download_file_advanced 5 urlDirect trGood none).fs = some f ∧
      startsPdf f.content = true ∧ 1000 ≤ f.content.length := by
  apply C2_success_validation.2.2 5 urlDirect trGood none
  decide

set_option maxRecDepth 40000 in
/-- Counterexample to C2 as stated: a response declaring
`application/pdf` whose 1000-byte body does not start with `%PDF` is
reported as a successful download by `download_file`, so the claim's
signature guarantee fails for responses with a trusted content type. -/
theorem C2_counterexample :
    (download_file 2 urlDirect trFake none).ok = true ∧
    (download_file 2 urlDirect trFake none).success.isSome = true ∧
    ((download_file 2 urlDirect trFake none).fs.map fun f => startsPdf f.content)
      = some false := by decide

/-- Claim C7 (amended): `download_file` runs the existing-file check first;
when the destination already validates it records an `existing_file` outcome
with zero transport calls, and rerunning it on the resulting state returns
the identical result (so a second run over already-validated files changes
nothing).  The retry-only worker `download_file_advanced`, by contrast,
performs no existing-file check at all (see the counterexample). -/
theorem C7_existing_short_circuit (rc : Nat) (url : Str) (tr : Transport) (fs0 : Fs)
    (h : (check_existing_file fs0).1 = true) :
    download_file rc url tr fs0 =
      { ok := true, fs := fs0, calls := 0,
        success := some { fileSize := fsSize fs0, status := .existing_file,
                          attempt := 0 } } ∧
    download_file rc url tr (download_file rc url tr fs0).fs =
      download_file rc url tr fs0 := by
  have h1 := download_file_check_true rc url tr fs0 h
  refine ⟨h1, ?_⟩
  rw [h1]
  exact h1

set_option maxRecDepth 40000 in
/-- Witness for C7 (amended): with a valid 1004-byte PDF already present the
bulk downloader reports `existing_file`, touches no transport, and leaves
the file as is. -/
theorem C7_existing_short_circuit_witness :
    download_file 2 urlDirect trAny (some validF) =
      { ok := true, fs := some validF, calls := 0,
        success := some { fileSize := fsSize (some validF), status := .existing_file,
                          attempt := 0 } } := by
  exact (C7_existing_short_circuit 2 urlDirect trAny (some validF) (by decide)).1

set_option maxRecDepth 40000 in
/-- Counterexample to C7 as stated: on a retry-only run the worker
(`download_file_advanced`) never invokes the existing-file check — with a
perfectly valid file already at the destination it still issues a transport
call and records a fresh download instead of an `existing` outcome. -/
theorem C7_counterexample :
    (check_existing_file (some validF)).1 = true ∧
    (download_file_advanced 5 urlDirect trGood (some validF)).calls = 1 ∧
    ((download_file_advanced 5 urlDirect trGood (some validF)).newly.map
      fun s => s.status) = some .newly_downloaded := by decide

/-! ## Ledger counting (claim C8) -/

theorem countP_map_assoc {α : Type} (k q : Dest) (v : α) (l : List (Dest × α)) :
    (l.map (fun kv => if kv.1 == k then (k, v) else kv)).countP
        (fun kv => kv.1 == q) =
      l.countP (fun kv => kv.1 == q) := by
  induction l with
  | nil => rfl
  | cons a as ih =>
    by_cases hk : (a.1 == k) = true
    · have ha : a.1 = k := eq_of_beq hk
      have hfa : (if (a.1 == k) = true then (k, v) else a) = (k, v) := if_pos hk
      rw [List.map_cons, hfa, List.countP_cons, List.countP_cons, ih, ha]
    · have hfa : (if (a.1 == k) = true then (k, v) else a) = a := if_neg hk
      rw [List.map_cons, hfa, List.countP_cons, List.countP_cons, ih]

theorem any_map_assoc {α : Type} (k q : Dest) (v : α) (l : List (Dest × α)) :
    (l.map (fun kv => if kv.1 == k then (k, v) else kv)).any (fun kv => kv.1 == q) =
      l.any (fun kv => kv.1 == q) := by
  induction l with
  | nil => rfl
  | cons a as ih =>
    by_cases hk : (a.1 == k) = true
    · have ha : a.1 = k := eq_of_beq hk
      have hfa : (if (a.1 == k) = true then (k, v) else a) = (k, v) := if_pos hk
      rw [List.map_cons, hfa, List.any_cons, List.any_cons, ih, ha]
    · have hfa : (if (a.1 == k) = true then (k, v) else a) = a := if_neg hk
      rw [List.map_cons, hfa, List.any_cons, List.any_cons, ih]

theorem countP_assocSet_absent {α : Type} (k q : Dest) (v : α) (l : List (Dest × α))
    (habs : l.any (fun kv => kv.1 == k) = false) :
    (assocSet k v l).countP (fun kv => kv.1 == q) =
      l.countP (fun kv => kv.1 == q) + (if (k == q) = true then 1 else 0) := by
  unfold assocSet
  rw [habs]
  simp [List.countP_append, List.countP_cons]

theorem countP_assocSet_ne {α : Type} (k q : Dest) (v : α) (l : List (Dest × α))
    (hne : (k == q) = false) :
    (assocSet k v l).countP (fun kv => kv.1 == q) = l.countP (fun kv => kv.1 == q) := by
  unfold assocSet
  split
  · exact countP_map_assoc k q v l
  · simp [List.countP_append, List.countP_cons, hne]

theorem any_assocSet_ne {α : Type} (k q : Dest) (v : α) (l : List (Dest × α))
    (hne : (k == q) = false) :
    (assocSet k v l).any (fun kv => kv.1 == q) = l.any (fun kv => kv.1 == q) := by
  unfold assocSet
  split
  · exact any_map_assoc k q v l
  · simp [List.any_append, hne]

/-- A `download_file` call with at least one attempt available produces
exactly one ledger record: a success or a failure, never both, never
neither. -/
def OneRec (r : DlResult) : Prop :=
  (r.success.isSome = true ∧ r.failure = none) ∨
  (r.success = none ∧ r.failure.isSome = true)

theorem dfLoop_one_record (url : Str) (tr : Transport) :
    ∀ (rem attempt : Nat) (fs : Fs) (calls : Nat) (waits : List Nat) (made : Nat),
      OneRec (dfLoop url tr (rem + 1) attempt fs calls waits made) := by
  intro rem
  induction rem with
  | zero =>
    intro attempt fs calls waits made
    rw [dfLoop]
    cases hA : dfAttempt url tr fs calls with
    | ok v => obtain ⟨content, fs', calls'⟩ := v; left; exact ⟨rfl, rfl⟩
    | error v => obtain ⟨e, fs', calls'⟩ := v; right; exact ⟨rfl, rfl⟩
  | succ k ih =>
    intro attempt fs calls waits made
    rw [dfLoop]
    cases hA : dfAttempt url tr fs calls with
    | ok v => obtain ⟨content, fs', calls'⟩ := v; left; exact ⟨rfl, rfl⟩
    | error v =>
      obtain ⟨e, fs', calls'⟩ := v
      have hne : ¬ (k + 1 = 0) := by omega
      simp only [if_neg hne]
      exact ih (attempt + 1) fs' calls' _ (made + 1)

theorem download_file_one_record (rc : Nat) (url : Str) (tr : Transport) (fs0 : Fs)
    (hrc : 1 ≤ rc) : OneRec (download_file rc url tr fs0) := by
  cases hb : (check_existing_file fs0).1
  · rw [download_file_check_false rc url tr fs0 hb]
    obtain ⟨k, rfl⟩ : ∃ k, rc = k + 1 := ⟨rc - 1, by omega⟩
    exact dfLoop_one_record url tr k 0 _ 0 [] 0
  · rw [download_file_check_true rc url tr fs0 hb]
    left
    exact ⟨rfl, rfl⟩

theorem recordDl_count_self (p : Dest) (r : DlResult) (L : Ledger)
    (hone : OneRec r) (habs : L.downloaded.any (fun kv => kv.1 == p) = false) :
    countPath p (recordDl p r L) = countPath p L + 1 := by
  rcases hone with ⟨hs, _⟩ | ⟨hs, hf⟩
  · obtain ⟨s, hs'⟩ := Option.isSome_iff_exists.1 hs
    unfold recordDl
    rw [hs']
    unfold countPath
    dsimp only
    rw [countP_assocSet_absent p p s L.downloaded habs]
    simp only [beq_self_eq_true, if_true]
    omega
  · obtain ⟨f, hf'⟩ := Option.isSome_iff_exists.1 hf
    unfold recordDl
    rw [hs, hf']
    unfold countPath
    dsimp only
    rw [List.countP_append]
    simp only [List.countP_cons, List.countP_nil, beq_self_eq_true, if_true]
    omega

theorem recordDl_count_other (p q : Dest) (r : DlResult) (L : Ledger)
    (hne : (p == q) = false) :
    countPath q (recordDl p r L) = countPath q L := by
  unfold recordDl
  cases hs : r.success with
  | some s =>
    unfold countPath
    dsimp only
    rw [countP_assocSet_ne p q s L.downloaded hne]
  | none =>
    cases hf : r.failure with
    | some f =>
      unfold countPath
      dsimp only
      rw [List.countP_append]
      simp [List.countP_cons, hne]
    | none => rfl

theorem recordDl_any_other (p q : Dest) (r : DlResult) (L : Ledger)
    (hne : (p == q) = false) :
    (recordDl p r L).downloaded.any (fun kv => kv.1 == q) =
      L.downloaded.any (fun kv => kv.1 == q) := by
  unfold recordDl
  cases hs : r.success with
  | some s =>
    dsimp only
    exact any_assocSet_ne p q s L.downloaded hne
  | none =>
    cases hf : r.failure with
    | some f => rfl
    | none => rfl

theorem downloadPhase_count (rc : Nat) (hrc : 1 ≤ rc) :
    ∀ (ts : List DlTask) (m : FsMap) (L : Ledger),
      (ts.map (fun t => t.path)).Nodup →
      (∀ t ∈ ts, L.downloaded.any (fun kv => kv.1 == t.path) = false) →
      (∀ t ∈ ts, countPath t.path (downloadPhase rc ts m L).2 = countPath t.path L + 1) ∧
      (∀ q, q ∉ ts.map (fun t => t.path) →
        countPath q (downloadPhase rc ts m L).2 = countPath q L) := by
  intro ts
  induction ts with
  | nil =>
    intro m L _ _
    exact ⟨fun t ht => absurd ht (List.not_mem_nil t), fun q _ => rfl⟩
  | cons t ts ih =>
    intro m L hnd habs
    have hone := download_file_one_record rc t.url t.tr (fsGet m t.path) hrc
    have hnd' : (ts.map (fun t => t.path)).Nodup := (List.nodup_cons.1 hnd).2
    have hnotin : t.path ∉ ts.map (fun t => t.path) := (List.nodup_cons.1 hnd).1
    have hstep : downloadPhase rc (t :: ts) m L =
        downloadPhase rc ts (fsSet m t.path (download_file rc t.url t.tr (fsGet m t.path)).fs)
          (recordDl t.path (download_file rc t.url t.tr (fsGet m t.path)) L) := rfl
    rw [hstep]
    have habs' : ∀ t' ∈ ts,
        (recordDl t.path (download_file rc t.url t.tr (fsGet m t.path)) L).downloaded.any
          (fun kv => kv.1 == t'.path) = false := by
      intro t' ht'
      have hne : (t.path == t'.path) = false := by
        rw [beq_eq_false_iff_ne]
        intro hcontra
        exact hnotin (hcontra ▸ List.mem_map_of_mem (fun t => t.path) ht')
      rw [recordDl_any_other _ _ _ _ hne]
      exact habs t' (List.mem_cons_of_mem _ ht')
    obtain ⟨ih1, ih2⟩ := ih
      (fsSet m t.path (download_file rc t.url t.tr (fsGet m t.path)).fs)
      (recordDl t.path (download_file rc t.url t.tr (fsGet m t.path)) L) hnd' habs'
    constructor
    · intro t' ht'
      rcases List.mem_cons.1 ht' with rfl | hmem
      · rw [ih2 t'.path hnotin]
        exact recordDl_count_self t'.path _ L hone (habs t' (List.mem_cons_self _ _))
      · rw [ih1 t' hmem]
        have hne : (t.path == t'.path) = false := by
          rw [beq_eq_false_iff_ne]
          intro hcontra
          exact hnotin (hcontra ▸ List.mem_map_of_mem (fun t => t.path) hmem)
        rw [recordDl_count_other _ _ _ _ hne]
    · intro q hq
      have hq1 : q ∉ ts.map (fun t => t.path) := by
        intro hx
        exact hq (List.mem_cons_of_mem _ hx)
      have hqt : (t.path == q) = false := by
        rw [beq_eq_false_iff_ne]
        intro hcontra
        exact hq (by rw [List.map_cons, ← hcontra]; exact List.mem_cons_self _ _)
      rw [ih2 q hq1, recordDl_count_other _ _ _ _ hqt]

theorem prefilter_spec :
    ∀ (ts : List DlTask) (m : FsMap) (L : Ledger),
      (ts.map (fun t => t.path)).Nodup →
      (∀ t ∈ ts, L.downloaded.any (fun kv => kv.1 == t.path) = false) →
      ((prefilter ts m L).2.2.map (fun t => t.path)).Sublist (ts.map (fun t => t.path)) ∧
      (∀ t ∈ ts,
        (t.path ∈ (prefilter ts m L).2.2.map (fun t => t.path) ∧
          countPath t.path (prefilter ts m L).2.1 = countPath t.path L) ∨
        (t.path ∉ (prefilter ts m L).2.2.map (fun t => t.path) ∧
          countPath t.path (prefilter ts m L).2.1 = countPath t.path L + 1)) ∧
      (∀ q, q ∉ ts.map (fun t => t.path) →
        countPath q (prefilter ts m L).2.1 = countPath q L) ∧
      (∀ q, q ∉ ts.map (fun t => t.path) →
        (prefilter ts m L).2.1.downloaded.any (fun kv => kv.1 == q) =
          L.downloaded.any (fun kv => kv.1 == q)) ∧
      (∀ t ∈ (prefilter ts m L).2.2,
        (prefilter ts m L).2.1.downloaded.any (fun kv => kv.1 == t.path) = false) := by
  intro ts
  induction ts with
  | nil =>
    intro m L _ _
    exact ⟨List.Sublist.refl _, fun t ht => absurd ht (List.not_mem_nil t),
      fun q _ => rfl, fun q _ => rfl, fun t ht => absurd ht (List.not_mem_nil t)⟩
  | cons t ts ih =>
    intro m L hnd habs
    have hnd' : (ts.map (fun t => t.path)).Nodup := (List.nodup_cons.1 hnd).2
    have hnotin : t.path ∉ ts.map (fun t => t.path) := (List.nodup_cons.1 hnd).1
    rcases hchk : check_existing_file (fsGet m t.path) with ⟨b, fs2⟩
    cases b with
    | false =>
      have hstep : prefilter (t :: ts) m L =
          ((prefilter ts (fsSet m t.path fs2) L).1,
           (prefilter ts (fsSet m t.path fs2) L).2.1,
           t :: (prefilter ts (fsSet m t.path fs2) L).2.2) := by
        rw [prefilter, hchk]
      rw [hstep]
      dsimp only
      obtain ⟨P1, P2, P3, P4, P5⟩ := ih (fsSet m t.path fs2) L hnd'
        (fun t' ht' => habs t' (List.mem_cons_of_mem _ ht'))
      refine ⟨?_, ?_, ?_, ?_, ?_⟩
      · rw [List.map_cons, List.map_cons]
        exact P1.cons₂ _
      · intro t' ht'
        rcases List.mem_cons.1 ht' with rfl | hmem
        · left
          exact ⟨by rw [List.map_cons]; exact List.mem_cons_self _ _, P3 t'.path hnotin⟩
        · rcases P2 t' hmem with ⟨hin, hcnt⟩ | ⟨hnin, hcnt⟩
          · left
            exact ⟨by rw [List.map_cons]; exact List.mem_cons_of_mem _ hin, hcnt⟩
          · right
            refine ⟨?_, hcnt⟩
            rw [List.map_cons]
            intro hx
            rcases List.mem_cons.1 hx with heq | hx2
            · exact hnotin (heq ▸ List.mem_map_of_mem (fun t => t.path) hmem)
            · exact hnin hx2
      · intro q hq
        exact P3 q (fun hx => hq (List.mem_cons_of_mem _ hx))
      · intro q hq
        exact P4 q (fun hx => hq (List.mem_cons_of_mem _ hx))
      · intro t' ht'
        rcases List.mem_cons.1 ht' with rfl | hmem
        · rw [P4 t'.path hnotin]
          exact habs t' (List.mem_cons_self _ _)
        · exact P5 t' hmem
    | true =>
      have hstep : prefilter (t :: ts) m L = prefilter ts (fsSet m t.path fs2)
          { L with downloaded :=
            assocSet t.path ⟨fsSize fs2, .existing_file, 0⟩ L.downloaded } := by
        rw [prefilter, hchk]
      rw [hstep]
      have habs' : ∀ t' ∈ ts,
          (assocSet t.path (⟨fsSize fs2, .existing_file, 0⟩ : SuccessRec)
            L.downloaded).any (fun kv => kv.1 == t'.path) = false := by
        intro t' ht'
        have hne : (t.path == t'.path) = false := by
          rw [beq_eq_false_iff_ne]
          intro hcontra
          exact hnotin (hcontra ▸ List.mem_map_of_mem (fun t => t.path) ht')
        rw [any_assocSet_ne _ _ _ _ hne]
        exact habs t' (List.mem_cons_of_mem _ ht')
      obtain ⟨P1, P2, P3, P4, P5⟩ := ih (fsSet m t.path fs2)
        { L with downloaded :=
          assocSet t.path ⟨fsSize fs2, .existing_file, 0⟩ L.downloaded } hnd' habs'
      have hcntL' : countPath t.path
          { L with downloaded :=
            assocSet t.path ⟨fsSize fs2, .existing_file, 0⟩ L.downloaded } =
            countPath t.path L + 1 := by
        unfold countPath
        dsimp only
        rw [countP_assocSet_absent _ _ _ _ (habs t (List.mem_cons_self _ _))]
        simp only [beq_self_eq_true, if_true]
        omega
      have hcntq : ∀ q, (t.path == q) = false → countPath q
          { L with downloaded :=
            assocSet t.path ⟨fsSize fs2, .existing_file, 0⟩ L.downloaded } =
            countPath q L := by
        intro q hne
        unfold countPath
        dsimp only
        rw [countP_assocSet_ne _ _ _ _ hne]
      refine ⟨?_, ?_, ?_, ?_, ?_⟩
      · rw [List.map_cons]
        exact P1.trans (List.sublist_cons_self _ _)
      · intro t' ht'
        rcases List.mem_cons.1 ht' with rfl | hmem
        · right
          constructor
          · intro hx
            exact hnotin (P1.subset hx)
          · rw [P3 t'.path hnotin, hcntL']
        · have hne : (t.path == t'.path) = false := by
            rw [beq_eq_false_iff_ne]
            intro hcontra
            exact hnotin (hcontra ▸ List.mem_map_of_mem (fun t => t.path) hmem)
          rcases P2 t' hmem with ⟨hin, hcnt⟩ | ⟨hnin, hcnt⟩
          · left
            exact ⟨hin, by rw [hcnt, hcntq t'.path hne]⟩
          · right
            exact ⟨hnin, by rw [hcnt, hcntq t'.path hne]⟩
      · intro q hq
        have hqt : (t.path == q) = false := by
          rw [beq_eq_false_iff_ne]
          intro hcontra
          exact hq (by rw [List.map_cons, ← hcontra]; exact List.mem_cons_self _ _)
        rw [P3 q (fun hx => hq (List.mem_cons_of_mem _ hx)), hcntq q hqt]
      · intro q hq
        have hqt : (t.path == q) = false := by
          rw [beq_eq_false_iff_ne]
          intro hcontra
          exact hq (by rw [List.map_cons, ← hcontra]; exact List.mem_cons_self _ _)
        rw [P4 q (fun hx => hq (List.mem_cons_of_mem _ hx))]
        dsimp only
        exact any_assocSet_ne _ _ _ _ hqt
      · exact P5

/-- A destination used by the scheduler examples. -/
def pA : Dest := "/out/a.pdf".toList

/-- Claim C8 (amended): after a completed run of `download_all_pdfs` over a
task list whose destination paths are pairwise distinct, and with at least
one attempt configured, every task has exactly one record in the ledger —
in `downloaded_files` or in `failed_downloads`, never both and never twice.
(For duplicated identifiers this fails; see the counterexample.) -/
theorem C8_unique_outcome (rc : Nat) (tasks : List DlTask) (m : FsMap)
    (hrc : 1 ≤ rc) (hnd : (tasks.map (fun t => t.path)).Nodup) :
    ∀ t ∈ tasks, countPath t.path (download_all_pdfs rc tasks m {}).2 = 1 := by
  intro t ht
  have habs0 : ∀ t' ∈ tasks, (({} : Ledger)).downloaded.any
      (fun kv => kv.1 == t'.path) = false := fun _ _ => rfl
  obtain ⟨P1, P2, P3, P4, P5⟩ := prefilter_spec tasks m {} hnd habs0
  have hstep : download_all_pdfs rc tasks m {} =
      downloadPhase rc (prefilter tasks m {}).2.2 (prefilter tasks m {}).1
        (prefilter tasks m {}).2.1 := rfl
  rw [hstep]
  have hndDl : ((prefilter tasks m {}).2.2.map (fun t => t.path)).Nodup :=
    hnd.sublist P1
  obtain ⟨D1, D2⟩ := downloadPhase_count rc hrc (prefilter tasks m {}).2.2
    (prefilter tasks m {}).1 (prefilter tasks m {}).2.1 hndDl P5
  have hempty : ∀ q, countPath q ({} : Ledger) = 0 := fun _ => rfl
  rcases P2 t ht with ⟨hin, hcnt⟩ | ⟨hnin, hcnt⟩
  · obtain ⟨t', ht', hpath⟩ := List.mem_map.1 hin
    have hD := D1 t' ht'
    rw [hpath] at hD
    rw [hD, hcnt, hempty]
  · rw [D2 t.path hnin, hcnt, hempty]

/-- Witness for C8 (amended) on a one-task catalog whose download fails:
the identifier ends with exactly one ledger record. -/
theorem C8_unique_outcome_witness :
    countPath pA (download_all_pdfs 1 [⟨urlDirect, pA, trBad⟩] [] {}).2 = 1 := by
  have h := C8_unique_outcome 1 [⟨urlDirect, pA, trBad⟩] [] (by omega) (by simp)
  exact h _ (List.mem_singleton.2 rfl)

/-- Counterexample to C8 as stated: with a duplicated identifier (two tasks
sharing one destination path) and a failing transport, the ledger ends the
run with two failure records for that identifier, not exactly one. -/
theorem C8_counterexample :
    countPath pA
      (download_all_pdfs 1 [⟨urlDirect, pA, trBad⟩, ⟨urlDirect, pA, trBad⟩] [] {}).2 = 2 ∧
    (download_all_pdfs 1 [⟨urlDirect, pA, trBad⟩, ⟨urlDirect, pA, trBad⟩] [] {}).2.failed.length
      = 2 := by decide

/-! ## The retry-only run (claim C6) -/

theorem lookup_filter_ne {α : Type} (p q : Dest) (hne : (q == p) = false) :
    ∀ (l : List (Dest × α)),
      (l.filter (fun kv => !(kv.1 == p))).lookup q = l.lookup q := by
  intro l
  induction l with
  | nil => rfl
  | cons a as ih =>
    by_cases hk : (a.1 == p) = true
    · have ha : a.1 = p := eq_of_beq hk
      have hqa : (q == a.1) = false := by rw [ha]; exact hne
      rw [List.filter_cons]
      simp only [hk, Bool.not_true, Bool.false_eq_true, if_false]
      rw [ih, List.lookup, hqa]
    · rw [Bool.not_eq_true] at hk
      rw [List.filter_cons]
      simp only [hk, Bool.not_false, if_true]
      by_cases hqa : (q == a.1) = true
      · obtain ⟨k1, v1⟩ := a
        rw [List.lookup, List.lookup]
        dsimp only at hqa
        rw [hqa]
      · rw [Bool.not_eq_true] at hqa
        obtain ⟨k1, v1⟩ := a
        rw [List.lookup, List.lookup]
        dsimp only at hqa
        rw [hqa, ih]

theorem fsGet_fsSet_ne (m : FsMap) (p q : Dest) (v : Fs) (hne : (q == p) = false) :
    fsGet (fsSet m p v) q = fsGet m q := by
  unfold fsGet fsSet
  cases v with
  | none => exact lookup_filter_ne p q hne m
  | some f =>
    dsimp only
    rw [List.lookup, hne]
    exact lookup_filter_ne p q hne m

theorem assocSet_absent_eq {α : Type} (k : Dest) (v : α) (l : List (Dest × α))
    (h : l.any (fun kv => kv.1 == k) = false) :
    assocSet k v l = l ++ [(k, v)] := by
  unfold assocSet
  rw [h]
  simp

theorem adv_ok_parts (rc : Nat) (url : Str) (tr : Transport) (fs0 : Fs)
    (h : (download_file_advanced rc url tr fs0).ok = true) :
    (∃ s, (download_file_advanced rc url tr fs0).newly = some s) ∧
    (download_file_advanced rc url tr fs0).stillFailed = none := by
  obtain ⟨c, _, _, _, ⟨a, hnew⟩, hstill⟩ := advLoop_ok_spec url tr rc rc 0 fs0 0 [] 0 h
  exact ⟨⟨_, hnew⟩, hstill⟩

theorem retryAll_ok (rc : Nat) :
    ∀ (ts : List DlTask) (m : FsMap) (st : RetryState),
      (ts.map (fun t => t.path)).Nodup →
      (∀ t ∈ ts, (download_file_advanced rc t.url t.tr (fsGet m t.path)).ok = true) →
      (∀ t ∈ ts, st.newly.any (fun kv => kv.1 == t.path) = false) →
      (retryAll rc ts m st).2.still = st.still ∧
      (retryAll rc ts m st).2.newly.map (fun kv => kv.1) =
        st.newly.map (fun kv => kv.1) ++ ts.map (fun t => t.path) := by
  intro ts
  induction ts with
  | nil => intro m st _ _ _; rw [retryAll]; exact ⟨rfl, by simp⟩
  | cons t ts ih =>
    intro m st hnd hok hfresh
    have hnd' : (ts.map (fun t => t.path)).Nodup := (List.nodup_cons.1 hnd).2
    have hnotin : t.path ∉ ts.map (fun t => t.path) := (List.nodup_cons.1 hnd).1
    have hadv := hok t (List.mem_cons_self _ _)
    obtain ⟨⟨s, hnew⟩, _⟩ := adv_ok_parts rc t.url t.tr (fsGet m t.path) hadv
    have hstep : retryAll rc (t :: ts) m st =
        retryAll rc ts (retryStep rc t m st).1 (retryStep rc t m st).2 := rfl
    have hsteprec : retryStep rc t m st =
        (fsSet m t.path (download_file_advanced rc t.url t.tr (fsGet m t.path)).fs,
         { st with newly := assocSet t.path s st.newly }) := by
      unfold retryStep
      dsimp only
      rw [hnew]
    rw [hstep, hsteprec]
    have hne : ∀ t' ∈ ts, (t'.path == t.path) = false := by
      intro t' ht'
      rw [beq_eq_false_iff_ne]
      intro hcontra
      exact hnotin (hcontra ▸ List.mem_map_of_mem (fun t => t.path) ht')
    have hok' : ∀ t' ∈ ts,
        (download_file_advanced rc t'.url t'.tr
          (fsGet (fsSet m t.path (download_file_advanced rc t.url t.tr (fsGet m t.path)).fs)
            t'.path)).ok = true := by
      intro t' ht'
      rw [fsGet_fsSet_ne m t.path t'.path _ (hne t' ht')]
      exact hok t' (List.mem_cons_of_mem _ ht')
    have hfresh' : ∀ t' ∈ ts,
        (assocSet t.path s st.newly).any (fun kv => kv.1 == t'.path) = false := by
      intro t' ht'
      have : (t.path == t'.path) = false := by
        rw [beq_eq_false_iff_ne]
        intro hcontra
        exact hnotin (hcontra ▸ List.mem_map_of_mem (fun t => t.path) ht')
      rw [any_assocSet_ne _ _ _ _ this]
      exact hfresh t' (List.mem_cons_of_mem _ ht')
    obtain ⟨ih1, ih2⟩ := ih
      (fsSet m t.path (download_file_advanced rc t.url t.tr (fsGet m t.path)).fs)
      { st with newly := assocSet t.path s st.newly } hnd' hok' hfresh'
    refine ⟨ih1, ?_⟩
    rw [ih2]
    dsimp only
    rw [assocSet_absent_eq t.path s st.newly (hfresh t (List.mem_cons_self _ _))]
    rw [List.map_append, List.map_cons]
    simp

theorem lookup_append_left {α : Type} (k : Dest) :
    ∀ (l1 l2 : List (Dest × α)), (l1.lookup k).isSome = true →
      (l1 ++ l2).lookup k = l1.lookup k := by
  intro l1
  induction l1 with
  | nil => intro l2 h; simp [List.lookup] at h
  | cons a as ih =>
    intro l2 h
    obtain ⟨k1, v1⟩ := a
    by_cases hk : (k == k1) = true
    · rw [List.cons_append, List.lookup, List.lookup, hk]
    · rw [Bool.not_eq_true] at hk
      rw [List.lookup, hk] at h
      rw [List.cons_append, List.lookup, List.lookup, hk]
      exact ih l2 h

theorem foldl_assocSet_spec {α : Type} :
    ∀ (adds old : List (Dest × α)),
      (adds.map (fun kv => kv.1)).Nodup →
      (∀ kv ∈ adds, old.any (fun x => x.1 == kv.1) = false) →
      (adds.foldl (fun acc kv => assocSet kv.1 kv.2 acc) old).length =
        old.length + adds.length ∧
      (∀ k, (old.lookup k).isSome = true →
        (adds.foldl (fun acc kv => assocSet kv.1 kv.2 acc) old).lookup k =
          old.lookup k) := by
  intro adds
  induction adds with
  | nil => intro old _ _; exact ⟨by simp, fun k _ => rfl⟩
  | cons a adds ih =>
    intro old hnd habs
    have hnd' : (adds.map (fun kv => kv.1)).Nodup := (List.nodup_cons.1 hnd).2
    have hnotin : a.1 ∉ adds.map (fun kv => kv.1) := (List.nodup_cons.1 hnd).1
    have ha := habs a (List.mem_cons_self _ _)
    have heq : assocSet a.1 a.2 old = old ++ [a] := by
      rw [assocSet_absent_eq a.1 a.2 old ha]
    have habs' : ∀ kv ∈ adds, (old ++ [a]).any (fun x => x.1 == kv.1) = false := by
      intro kv hkv
      rw [List.any_append]
      have h1 := habs kv (List.mem_cons_of_mem _ hkv)
      have h2 : (a.1 == kv.1) = false := by
        rw [beq_eq_false_iff_ne]
        intro hcontra
        exact hnotin (hcontra ▸ List.mem_map_of_mem (fun kv => kv.1) hkv)
      simp [h1, h2]
    obtain ⟨ih1, ih2⟩ := ih (old ++ [a]) hnd' habs'
    rw [List.foldl_cons, heq]
    constructor
    · rw [ih1]
      simp only [List.length_append, List.length_cons, List.length_nil]
      omega
    · intro k hk
      rw [ih2 k (by rw [lookup_append_left k old [a] hk]; exact hk)]
      exact lookup_append_left k old [a] hk

/-- Claim C6: a retry-only run over a ledger with N failed and M successful
entries, whose retried downloads all succeed, ends with an empty failure
list and N+M successful entries, and every previously successful record is
carried over unchanged (`lookup` returns the identical record); the run only
ever consults the transports of the retried tasks, so no network call is made
for the M carried-over entries. -/
theorem C6_retry_resume (rc : Nat) (data : IndexData) (tasks : List DlTask) (m : FsMap)
    (hnd : (tasks.map (fun t => t.path)).Nodup)
    (hcorr : tasks.map (fun t => t.path) = data.failed_downloads.map (fun kv => kv.1))
    (hdisj : ∀ t ∈ tasks, data.downloaded_files.any (fun kv => kv.1 == t.path) = false)
    (hok : ∀ t ∈ tasks, (download_file_advanced rc t.url t.tr (fsGet m t.path)).ok = true) :
    (retryRun rc data tasks m).1.failed_downloads = [] ∧
    (retryRun rc data tasks m).1.downloaded_files.length =
      data.downloaded_files.length + data.failed_downloads.length ∧
    (∀ k, (data.downloaded_files.lookup k).isSome = true →
      (retryRun rc data tasks m).1.downloaded_files.lookup k =
        data.downloaded_files.lookup k) := by
  obtain ⟨R1, R2⟩ := retryAll_ok rc tasks m {} hnd hok (fun _ _ => rfl)
  have hnewlykeys : (retryAll rc tasks m {}).2.newly.map (fun kv => kv.1) =
      tasks.map (fun t => t.path) := by simpa using R2
  have hndk : ((retryAll rc tasks m {}).2.newly.map (fun kv => kv.1)).Nodup := by
    rw [hnewlykeys]; exact hnd
  have habsx : ∀ kv ∈ (retryAll rc tasks m {}).2.newly,
      data.downloaded_files.any (fun x => x.1 == kv.1) = false := by
    intro kv hkv
    have hmem : kv.1 ∈ tasks.map (fun t => t.path) := by
      rw [← hnewlykeys]
      exact List.mem_map_of_mem (fun kv => kv.1) hkv
    obtain ⟨t, ht, hpath⟩ := List.mem_map.1 hmem
    rw [← hpath]
    exact hdisj t ht
  obtain ⟨F1, F2⟩ := foldl_assocSet_spec
    (retryAll rc tasks m {}).2.newly data.downloaded_files hndk habsx
  have hlen : (retryAll rc tasks m {}).2.newly.length = data.failed_downloads.length := by
    have h1 := congrArg List.length hnewlykeys
    have h2 := congrArg List.length hcorr
    simp only [List.length_map] at h1 h2
    omega
  refine ⟨R1, ?_, F2⟩
  show (((retryAll rc tasks m {}).2.newly).foldl
    (fun acc kv => assocSet kv.1 kv.2 acc) data.downloaded_files).length = _
  rw [F1, hlen]

/-- A previously successful ledger entry and a previously failed one, used by
the retry-resume witness. -/
def pOld : Dest := "/out/old.pdf".toList

def dataPrev : IndexData :=
  { downloaded_files := [(pOld, ⟨5000, .newly_downloaded, 1⟩)],
    failed_downloads := [(pA, ⟨.httpError 404, 2⟩)] }

def taskGood : DlTask := { url := urlDirect, path := pA, tr := trGood }

set_option maxRecDepth 40000 in
/-- Witness for C6: one previously failed task (N = 1) retried against a now
healthy transport plus one carried-over success (M = 1) yields a ledger with
no failures, two successes, and the old record intact. -/
theorem C6_retry_resume_witness :
    (retryRun 5 dataPrev [taskGood] []).1.failed_downloads = [] ∧
    (retryRun 5 dataPrev [taskGood] []).1.downloaded_files.length = 2 ∧
    (retryRun 5 dataPrev [taskGood] []).1.downloaded_files.lookup pOld =
      dataPrev.downloaded_files.lookup pOld := by
  have h := C6_retry_resume 5 dataPrev [taskGood] [] (by simp) (by decide)
    (by decide) (by decide)
  refine ⟨h.1, ?_, h.2.2 pOld (by decide)⟩
  rw [h.2.1]
  decide
